import Mathlib

/-!
Verification of the OpenSim-Pymote remote-console client against its
specification.  The Python sources
`opensim_pymote/client.py`, `opensim_pymote/parsers.py`,
`opensim_pymote/models.py` and `pymote.py` are shallowly embedded:
pure functions become Lean functions, the socket is an explicit script of
receive events, raised exceptions become `Except` values.

Modelling conventions, used throughout:
* Python `float` values are represented as exact rationals (ℚ).  The code
  never computes with the floats, it only stores values obtained from
  decimal literals, so the decimal value is a faithful abstraction.
* The regex character class `\d` and the string predicates are modelled on
  ASCII (the inputs of interest are ASCII); `int()` underscore and sign
  handling is modelled, exotic unicode digits are not.
* A `recv` that would block past the scripted events is modelled as the
  socket timeout firing, which is what the blocking socket with a
  configured timeout eventually does.
-/

namespace Pymote

/-! ### Python string primitives -/

/-- Python's `str` whitespace characters (ASCII part). -/
def pyIsSpace (c : Char) : Bool :=
  c = ' ' || c = '\t' || c = '\n' || c = '\r' || c = '\x0b' || c = '\x0c'

/-- `s.strip()` on a character list: drop whitespace from both ends. -/
def pyStripChars (cs : List Char) : List Char :=
  ((cs.dropWhile pyIsSpace).reverse.dropWhile pyIsSpace).reverse

/-- Python `s.strip()`. -/
def pyStrip (s : String) : String := ⟨pyStripChars s.data⟩

/-- Split on every occurrence of one separator character, keeping empty
pieces — Python `s.split(sep)` for a one-character separator. -/
def splitOnCharAux (sep : Char) : List Char → List Char → List String
  | [], acc => [⟨acc.reverse⟩]
  | c :: rest, acc =>
    if c = sep then ⟨acc.reverse⟩ :: splitOnCharAux sep rest []
    else splitOnCharAux sep rest (c :: acc)

/-- Python `s.split(sep)` for a one-character separator. -/
def pySplitOn (sep : Char) (s : String) : List String := splitOnCharAux sep s.data []

/-- Python `s.split('\n')`. -/
def splitLines (s : String) : List String := pySplitOn '\n' s

/-- Python `s.split()` (no argument): split on whitespace runs, discarding
empty pieces. -/
def wordsAux : List Char → List Char → List String
  | [], acc => if acc.isEmpty then [] else [⟨acc.reverse⟩]
  | c :: rest, acc =>
    if pyIsSpace c then
      if acc.isEmpty then wordsAux rest [] else ⟨acc.reverse⟩ :: wordsAux rest []
    else wordsAux rest (c :: acc)

/-- Python `s.split()` (no argument). -/
def pySplitWs (s : String) : List String := wordsAux s.data []

/-- Python `s.lower()` (ASCII). -/
def pyLower (s : String) : String := ⟨s.data.map Char.toLower⟩

/-- `needle` is a prefix of `hay`. -/
def isPrefixList : List Char → List Char → Bool
  | [], _ => true
  | _ :: _, [] => false
  | a :: as, b :: bs => a = b && isPrefixList as bs

/-- `needle` occurs inside `hay` (substring test). -/
def isInfixList (n : List Char) : List Char → Bool
  | [] => isPrefixList n []
  | c :: t => isPrefixList n (c :: t) || isInfixList n t

/-- Python `needle in hay` for strings. -/
def pyIn (needle hay : String) : Bool := isInfixList needle.data hay.data

/-! ### Python numeric conversions -/

/-- Numeric value of a list of decimal digits. -/
def digitsVal (ds : List Char) : Nat :=
  ds.foldl (fun a c => 10 * a + (c.toNat - 48)) 0

/-- After the first digit of an `int()` literal: `('_'? digit)*` to the end,
returning the digits with the underscores removed. -/
def undRest : List Char → Option (List Char)
  | [] => some []
  | c :: rest =>
    if c = '_' then
      match rest with
      | [] => none
      | d :: rest2 => if d.isDigit then (undRest rest2).map (d :: ·) else none
    else if c.isDigit then (undRest rest).map (c :: ·) else none

/-- Python `int(s)`: strip, optional sign, digits with single underscores
between digits.  Returns `none` where `int()` raises `ValueError`. -/
def pyInt? (s : String) : Option Int :=
  let cs := pyStripChars s.data
  let neg := cs.head? = some '-'
  let cs2 := if cs.head? = some '+' || cs.head? = some '-' then cs.tail else cs
  match cs2 with
  | [] => none
  | c :: rest =>
    if c.isDigit then
      match undRest rest with
      | some ds => some ((if neg then -1 else 1) * (digitsVal (c :: ds) : Int))
      | none => none
    else none

/-- Exact value of the decimal literal `ds.fs`. -/
def decVal (ds fs : List Char) : ℚ :=
  (digitsVal ds : ℚ) + (digitsVal fs : ℚ) / (10 : ℚ) ^ fs.length

/-- Optional exponent suffix of a `float()` literal; must reach the end. -/
def expPart (q : ℚ) (cs : List Char) : Option ℚ :=
  match cs with
  | [] => some q
  | e :: rest =>
    if e = 'e' || e = 'E' then
      let neg := rest.head? = some '-'
      let cs2 := if rest.head? = some '+' || rest.head? = some '-' then rest.tail else rest
      match cs2 with
      | [] => none
      | c :: _ =>
        if c.isDigit && cs2.dropWhile Char.isDigit = [] then
          let e0 : ℤ := (digitsVal (cs2.takeWhile Char.isDigit) : ℤ)
          some (q * (10 : ℚ) ^ (if neg then -e0 else e0))
        else none
    else none

/-- Body of a `float()` literal after sign removal:
`digits [. digits] [exp]` or `. digits [exp]`. -/
def floatBody (cs : List Char) : Option ℚ :=
  let ds := cs.takeWhile Char.isDigit
  let r1 := cs.dropWhile Char.isDigit
  if r1.head? = some '.' then
    let fs := r1.tail.takeWhile Char.isDigit
    let r2 := r1.tail.dropWhile Char.isDigit
    if ds = [] && fs = [] then none else expPart (decVal ds fs) r2
  else
    if ds = [] then none else expPart ((digitsVal ds : ℚ)) r1

/-- Python `float(s)` on decimal literals (no `inf`/`nan`/underscores, which
never occur in the strings this program converts).  `none` = `ValueError`. -/
def pyFloat? (s : String) : Option ℚ :=
  let cs := pyStripChars s.data
  let neg := cs.head? = some '-'
  let cs2 := if cs.head? = some '+' || cs.head? = some '-' then cs.tail else cs
  match floatBody cs2 with
  | some q => some (if neg then -q else q)
  | none => none

/-! ### Regex models

The code uses three patterns, always via `re.search` (leftmost match):
`(\d+\.?\d*)`, `(\d+)` and
`<(\d+\.?\d*),\s*(\d+\.?\d*),\s*(\d+\.?\d*)>`.
For these patterns greedy matching without backtracking is exact: a shorter
match of `\d+\.?\d*` is always followed by a digit or a dot, never by the
`,` or `>` the pattern requires next, and giving back from `\s*` leaves a
whitespace character that cannot start `\d+`. -/

/-- Match `\d+\.?\d*` at the front: `some (token, rest)` or `none`. -/
def numTok (cs : List Char) : Option (List Char × List Char) :=
  match cs with
  | [] => none
  | c :: _ =>
    if c.isDigit then
      let ds := cs.takeWhile Char.isDigit
      let r1 := cs.dropWhile Char.isDigit
      if r1.head? = some '.' then
        some (ds ++ '.' :: r1.tail.takeWhile Char.isDigit, r1.tail.dropWhile Char.isDigit)
      else
        some (ds, r1)
    else none

/-- `re.search(r'(\d+\.?\d*)', line)`: the leftmost match. -/
def findNumTok : List Char → Option (List Char)
  | [] => none
  | c :: rest =>
    match numTok (c :: rest) with
    | some (tok, _) => some tok
    | none => findNumTok rest

/-- `re.search(r'(\d+)', line)`: the leftmost digit run. -/
def findIntTok : List Char → Option (List Char)
  | [] => none
  | c :: rest =>
    if c.isDigit then some ((c :: rest).takeWhile Char.isDigit) else findIntTok rest

/-- Expect one literal character. -/
def expectChar (c : Char) : List Char → Option (List Char)
  | [] => none
  | d :: rest => if d = c then some rest else none

/-- Match `<(\d+\.?\d*),\s*(\d+\.?\d*),\s*(\d+\.?\d*)>` at the front,
returning the three captured groups. -/
def posAt (cs : List Char) : Option (List Char × List Char × List Char) := do
  let r0 ← expectChar '<' cs
  let (a, r1) ← numTok r0
  let r2 ← expectChar ',' r1
  let (b, r3) ← numTok (r2.dropWhile pyIsSpace)
  let r4 ← expectChar ',' r3
  let (c, r5) ← numTok (r4.dropWhile pyIsSpace)
  let _ ← expectChar '>' r5
  pure (a, b, c)

/-- `re.search` with the position pattern: leftmost match. -/
def findPos : List Char → Option (List Char × List Char × List Char)
  | [] => none
  | c :: rest =>
    match posAt (c :: rest) with
    | some t => some t
    | none => findPos rest

/-! ### Exceptions and data models (`models.py`) -/

/-- The Python exceptions the embedded code can raise.
`valueError` from `int()`/`float()`, `indexError` from list indexing,
`attributeError` from calling a method on a value of the wrong type
(e.g. `.get` on a non-dict). -/
inductive PyErr
  | valueError
  | indexError
  | attributeError
deriving DecidableEq, Repr

/-- `parts[i]`: Python list indexing, raising `IndexError` out of range. -/
def pyGet (l : List α) (i : Nat) : Except PyErr α :=
  match l.get? i with
  | some a => .ok a
  | none => .error .indexError

/-- `int(s)` raising `ValueError`. -/
def pyIntE (s : String) : Except PyErr Int :=
  match pyInt? s with
  | some n => .ok n
  | none => .error .valueError

/-- `float(s)` raising `ValueError`. -/
def pyFloatE (s : String) : Except PyErr ℚ :=
  match pyFloat? s with
  | some q => .ok q
  | none => .error .valueError

/-- `models.Region` (floats do not occur; ints are `Int`). -/
structure Region where
  name : String
  uuid : String
  location_x : Int
  location_y : Int
  size_x : Int := 256
  size_y : Int := 256
  external_hostname : Option String := none
  port : Option Int := none
deriving DecidableEq, Repr

/-- `models.User`; `position` is the `(x, y, z)` float triple. -/
structure User where
  first_name : String
  last_name : String
  uuid : Option String := none
  region : Option String := none
  position : Option (ℚ × ℚ × ℚ) := none
  online : Bool := false
  level : Int := 0
deriving DecidableEq, Repr

/-- `models.Stats`; `Stats()` has every field `None`. -/
structure Stats where
  fps : Option ℚ := none
  physics_fps : Option ℚ := none
  agents : Option Int := none
  objects : Option Int := none
  scripts : Option Int := none
  memory_mb : Option ℚ := none
  uptime : Option String := none
deriving DecidableEq, Repr

/-! ### `parsers.py`

Each per-line function returns `Except PyErr (Option record)`:
`.ok none` models a `continue` (skipped line), `.error e` models an
exception escaping the loop body.  The `try:` bodies are separate
functions; the `except (ValueError, IndexError)` clause maps exactly
those two errors to a skip. -/

/-- Location parsing of `parse_regions` (parsers.py lines 34-43):
`parts[2]` split on `,`; two pieces are converted with `int()`, any other
piece count defaults to `(0, 0)`. -/
def locOf (parts : List String) : Except PyErr (Int × Int) :=
  if 2 < parts.length then
    match pyGet parts 2 with
    | .error e => .error e
    | .ok p2 =>
      if (pySplitOn ',' p2).length = 2 then
        match pyGet (pySplitOn ',' p2) 0 with
        | .error e => .error e
        | .ok lx =>
          match pyIntE lx with
          | .error e => .error e
          | .ok x =>
            match pyGet (pySplitOn ',' p2) 1 with
            | .error e => .error e
            | .ok ly =>
              match pyIntE ly with
              | .error e => .error e
              | .ok y => .ok (x, y)
      else .ok (0, 0)
  else .ok (0, 0)

/-- Size parsing of `parse_regions` (parsers.py lines 45-54): `parts[3]`
split on `x`, defaulting to `(256, 256)`. -/
def szOf (parts : List String) : Except PyErr (Int × Int) :=
  if 3 < parts.length then
    match pyGet parts 3 with
    | .error e => .error e
    | .ok p3 =>
      if (pySplitOn 'x' p3).length = 2 then
        match pyGet (pySplitOn 'x' p3) 0 with
        | .error e => .error e
        | .ok sx =>
          match pyIntE sx with
          | .error e => .error e
          | .ok x =>
            match pyGet (pySplitOn 'x' p3) 1 with
            | .error e => .error e
            | .ok sy =>
              match pyIntE sy with
              | .error e => .error e
              | .ok y => .ok (x, y)
      else .ok (256, 256)
  else .ok (256, 256)

/-- Port parsing of `parse_regions` (parsers.py line 57):
`int(parts[4]) if len(parts) > 4 else None`. -/
def portOf (parts : List String) : Except PyErr (Option Int) :=
  if 4 < parts.length then
    match pyGet parts 4 with
    | .error e => .error e
    | .ok p4 =>
      match pyIntE p4 with
      | .error e => .error e
      | .ok p => .ok (some p)
  else .ok none

/-- The `try:` body of the `parse_regions` loop (parsers.py lines 30-68). -/
def tryRegion (parts : List String) : Except PyErr Region :=
  match pyGet parts 0 with
  | .error e => .error e
  | .ok name =>
    match (if 1 < parts.length then pyGet parts 1 else .ok "") with
    | .error e => .error e
    | .ok uuid =>
      match locOf parts with
      | .error e => .error e
      | .ok loc =>
        match szOf parts with
        | .error e => .error e
        | .ok sz =>
          match portOf parts with
          | .error e => .error e
          | .ok port =>
            .ok { name := name, uuid := uuid, location_x := loc.1, location_y := loc.2,
                  size_x := sz.1, size_y := sz.2, external_hostname := none, port := port }

/-- One iteration of the `parse_regions` loop. -/
def parseRegionLine (line : String) : Except PyErr (Option Region) :=
  if pyStrip line = "" || pyIn "Region Name" line || pyIn "---" line then .ok none
  else
    if (pySplitWs line).length < 3 then .ok none
    else
      match tryRegion (pySplitWs line) with
      | .ok r => .ok (some r)
      | .error .valueError => .ok none
      | .error .indexError => .ok none
      | .error e => .error e

/-- Run a per-line function over all lines, collecting the produced records
and propagating an escaped exception. -/
def linesFilterE (f : String → Except PyErr (Option α)) : List String → Except PyErr (List α)
  | [] => .ok []
  | l :: ls =>
    match f l with
    | .error e => .error e
    | .ok none => linesFilterE f ls
    | .ok (some a) => (linesFilterE f ls).map (a :: ·)

/-- `parsers.parse_regions` with exceptions made explicit. -/
def parse_regionsE (output : String) : Except PyErr (List Region) :=
  linesFilterE parseRegionLine (splitLines (pyStrip output))

/-- Position extraction of `parse_users` (parsers.py lines 103-112): only
attempted when the line has more than 3 whitespace columns; the pattern is
searched in the whole line and the captures converted with `float()`. -/
def posOf (parts : List String) (line : String) : Except PyErr (Option (ℚ × ℚ × ℚ)) :=
  if 3 < parts.length then
    match findPos line.data with
    | some (a, b, c) =>
      match pyFloatE ⟨a⟩ with
      | .error e => .error e
      | .ok x =>
        match pyFloatE ⟨b⟩ with
        | .error e => .error e
        | .ok y =>
          match pyFloatE ⟨c⟩ with
          | .error e => .error e
          | .ok z => .ok (some (x, y, z))
    | none => .ok none
  else .ok none

/-- The `try:` body of the `parse_users` loop (parsers.py lines 95-121). -/
def tryUser (parts : List String) (line : String) : Except PyErr User :=
  match pyGet parts 0 with
  | .error e => .error e
  | .ok first =>
    match (if 1 < parts.length then pyGet parts 1 else .ok "") with
    | .error e => .error e
    | .ok last =>
      match (if 2 < parts.length then (pyGet parts 2).map some else .ok none) with
      | .error e => .error e
      | .ok region =>
        match posOf parts line with
        | .error e => .error e
        | .ok position =>
          .ok { first_name := first, last_name := last, uuid := none, region := region,
                position := position, online := true, level := 0 }

/-- One iteration of the `parse_users` loop. -/
def parseUserLine (line : String) : Except PyErr (Option User) :=
  if pyStrip line = "" || pyIn "Name" line || pyIn "---" line then .ok none
  else
    if (pySplitWs line).length < 2 then .ok none
    else
      match tryUser (pySplitWs line) line with
      | .ok u => .ok (some u)
      | .error .valueError => .ok none
      | .error .indexError => .ok none
      | .error e => .error e

/-- `parsers.parse_users` with exceptions made explicit. -/
def parse_usersE (output : String) : Except PyErr (List User) :=
  linesFilterE parseUserLine (splitLines (pyStrip output))

/-- One iteration of the `parse_stats` loop (parsers.py lines 143-181);
this loop has no `try`, so a conversion failure would escape.  The
conditions test `line.lower()` of the stripped line, the numbers are
extracted from the stripped line itself. -/
def statsLineStep (st : Stats) (line0 : String) : Except PyErr Stats :=
  if pyIn "fps" (pyLower (pyStrip line0)) && !pyIn "physics" (pyLower (pyStrip line0)) then
    match findNumTok (pyStrip line0).data with
    | some tok => (pyFloatE ⟨tok⟩).map (fun v => { st with fps := some v })
    | none => pure st
  else if pyIn "physics fps" (pyLower (pyStrip line0)) then
    match findNumTok (pyStrip line0).data with
    | some tok => (pyFloatE ⟨tok⟩).map (fun v => { st with physics_fps := some v })
    | none => pure st
  else if pyIn "agents" (pyLower (pyStrip line0)) && !pyIn "child" (pyLower (pyStrip line0)) then
    match findIntTok (pyStrip line0).data with
    | some tok => (pyIntE ⟨tok⟩).map (fun v => { st with agents := some v })
    | none => pure st
  else if pyIn "objects" (pyLower (pyStrip line0)) then
    match findIntTok (pyStrip line0).data with
    | some tok => (pyIntE ⟨tok⟩).map (fun v => { st with objects := some v })
    | none => pure st
  else if pyIn "scripts" (pyLower (pyStrip line0)) then
    match findIntTok (pyStrip line0).data with
    | some tok => (pyIntE ⟨tok⟩).map (fun v => { st with scripts := some v })
    | none => pure st
  else if pyIn "memory" (pyLower (pyStrip line0)) then
    match findNumTok (pyStrip line0).data with
    | some tok => (pyFloatE ⟨tok⟩).map (fun v => { st with memory_mb := some v })
    | none => pure st
  else pure st

/-- Fold `statsLineStep` over the lines, propagating exceptions. -/
def statsFoldE : Stats → List String → Except PyErr Stats
  | st, [] => .ok st
  | st, l :: ls =>
    match statsLineStep st l with
    | .ok st' => statsFoldE st' ls
    | .error e => .error e

/-- `parsers.parse_stats` with exceptions made explicit. -/
def parse_statsE (output : String) : Except PyErr Stats :=
  statsFoldE {} (splitLines (pyStrip output))

/-- Total version of `statsLineStep`; agrees with it (`statsLineStep_eq`)
because the extracted tokens always convert. -/
def statsStepPure (st : Stats) (line0 : String) : Stats :=
  if pyIn "fps" (pyLower (pyStrip line0)) && !pyIn "physics" (pyLower (pyStrip line0)) then
    match findNumTok (pyStrip line0).data with
    | some tok => match pyFloat? ⟨tok⟩ with
      | some v => { st with fps := some v }
      | none => st
    | none => st
  else if pyIn "physics fps" (pyLower (pyStrip line0)) then
    match findNumTok (pyStrip line0).data with
    | some tok => match pyFloat? ⟨tok⟩ with
      | some v => { st with physics_fps := some v }
      | none => st
    | none => st
  else if pyIn "agents" (pyLower (pyStrip line0)) && !pyIn "child" (pyLower (pyStrip line0)) then
    match findIntTok (pyStrip line0).data with
    | some tok => match pyInt? ⟨tok⟩ with
      | some v => { st with agents := some v }
      | none => st
    | none => st
  else if pyIn "objects" (pyLower (pyStrip line0)) then
    match findIntTok (pyStrip line0).data with
    | some tok => match pyInt? ⟨tok⟩ with
      | some v => { st with objects := some v }
      | none => st
    | none => st
  else if pyIn "scripts" (pyLower (pyStrip line0)) then
    match findIntTok (pyStrip line0).data with
    | some tok => match pyInt? ⟨tok⟩ with
      | some v => { st with scripts := some v }
      | none => st
    | none => st
  else if pyIn "memory" (pyLower (pyStrip line0)) then
    match findNumTok (pyStrip line0).data with
    | some tok => match pyFloat? ⟨tok⟩ with
      | some v => { st with memory_mb := some v }
      | none => st
    | none => st
  else st

/-! ### JSON (the `json` module, as used by the clients)

`json.loads` is modelled by a recursive-descent parser over the character
list (fuel-indexed for the nesting recursion), `json.dumps` of the request
envelope by direct string building.  Strict mode is modelled: raw control
characters inside strings are rejected; `\uXXXX` escapes become the single
code point (surrogate pairs are not combined — none occur here). -/

/-- JSON values; numbers as exact rationals. -/
inductive Json
  | null
  | bool (b : Bool)
  | num (q : ℚ)
  | str (s : String)
  | arr (xs : List Json)
  | obj (kvs : List (String × Json))
deriving Repr

/-- JSON whitespace. -/
def jsonWsB (c : Char) : Bool := c = ' ' || c = '\t' || c = '\n' || c = '\r'

def jsonSkipWs (cs : List Char) : List Char := cs.dropWhile jsonWsB

def hexVal (c : Char) : Option Nat :=
  if c.isDigit then some (c.toNat - 48)
  else if 'a' ≤ c ∧ c ≤ 'f' then some (c.toNat - 87)
  else if 'A' ≤ c ∧ c ≤ 'F' then some (c.toNat - 55)
  else none

/-- Parse a JSON string body (after the opening quote). -/
def jParseStr : List Char → List Char → Option (String × List Char)
  | [], _ => none
  | c :: rest, acc =>
    if c = '"' then some (⟨acc.reverse⟩, rest)
    else if c = '\\' then
      match rest with
      | [] => none
      | e :: rest2 =>
        if e = '"' then jParseStr rest2 ('"' :: acc)
        else if e = '\\' then jParseStr rest2 ('\\' :: acc)
        else if e = '/' then jParseStr rest2 ('/' :: acc)
        else if e = 'b' then jParseStr rest2 ('\x08' :: acc)
        else if e = 'f' then jParseStr rest2 ('\x0c' :: acc)
        else if e = 'n' then jParseStr rest2 ('\n' :: acc)
        else if e = 'r' then jParseStr rest2 ('\r' :: acc)
        else if e = 't' then jParseStr rest2 ('\t' :: acc)
        else if e = 'u' then
          match rest2 with
          | h1 :: h2 :: h3 :: h4 :: rest3 =>
            match hexVal h1, hexVal h2, hexVal h3, hexVal h4 with
            | some a, some b, some c2, some d =>
              jParseStr rest3 (Char.ofNat (((a * 16 + b) * 16 + c2) * 16 + d) :: acc)
            | _, _, _, _ => none
          | _ => none
        else none
    else if c.toNat < 0x20 then none
    else jParseStr rest (c :: acc)

/-- Parse a JSON number: `-?(0|[1-9][0-9]*)(\.[0-9]+)?([eE][+-]?[0-9]+)?`. -/
def jParseNum (cs : List Char) : Option (ℚ × List Char) :=
  let neg := cs.head? = some '-'
  let cs1 := if neg then cs.tail else cs
  match cs1 with
  | [] => none
  | c :: _ =>
    if c.isDigit then
      let ds := cs1.takeWhile Char.isDigit
      let r1 := cs1.dropWhile Char.isDigit
      if 1 < ds.length ∧ ds.head? = some '0' then none
      else
        let step2 : ℚ → List Char → Option (ℚ × List Char) := fun q r =>
          match r with
          | '.' :: r2 =>
            let fs := r2.takeWhile Char.isDigit
            if fs = [] then none
            else some (q + (digitsVal fs : ℚ) / (10 : ℚ) ^ fs.length, r2.dropWhile Char.isDigit)
          | _ => some (q, r)
        match step2 (digitsVal ds : ℚ) r1 with
        | none => none
        | some (q, r2) =>
          let q := if neg then -q else q
          match r2 with
          | e :: r3 =>
            if e = 'e' ∨ e = 'E' then
              let eneg := r3.head? = some '-'
              let r4 := if r3.head? = some '+' || r3.head? = some '-' then r3.tail else r3
              match r4 with
              | [] => none
              | d :: _ =>
                if d.isDigit then
                  let es : ℤ := (digitsVal (r4.takeWhile Char.isDigit) : ℤ)
                  some (q * (10 : ℚ) ^ (if eneg then -es else es), r4.dropWhile Char.isDigit)
                else none
            else some (q, r2)
          | [] => some (q, r2)
    else none

/-- Drop a literal token. -/
def takeLit : List Char → List Char → Option (List Char)
  | [], cs => some cs
  | l :: ls, c :: cs => if c = l then takeLit ls cs else none
  | _ :: _, [] => none

mutual

/-- Parse one JSON value (leading whitespace allowed). -/
def jParseVal : Nat → List Char → Option (Json × List Char)
  | 0, _ => none
  | f + 1, cs0 =>
    match jsonSkipWs cs0 with
    | [] => none
    | c :: rest =>
      if c = '"' then
        match jParseStr rest [] with
        | some (s, r) => some (.str s, r)
        | none => none
      else if c = Char.ofNat 123 then jParseObjItems f (jsonSkipWs rest) [] true
      else if c = '[' then jParseArrItems f (jsonSkipWs rest) [] true
      else if c = 't' then (takeLit ['r', 'u', 'e'] rest).map (fun r => (.bool true, r))
      else if c = 'f' then (takeLit ['a', 'l', 's', 'e'] rest).map (fun r => (.bool false, r))
      else if c = 'n' then (takeLit ['u', 'l', 'l'] rest).map (fun r => (.null, r))
      else
        match jParseNum (c :: rest) with
        | some (q, r) => some (.num q, r)
        | none => none

/-- Parse object members after `\x7b`; `first` marks the position right
after the brace where `\x7d` ends the object. -/
def jParseObjItems : Nat → List Char → List (String × Json) → Bool → Option (Json × List Char)
  | 0, _, _, _ => none
  | f + 1, cs, acc, first =>
    match cs with
    | [] => none
    | c :: rest =>
      if c = Char.ofNat 125 ∧ first then some (.obj acc.reverse, rest)
      else if c = '"' then
        match jParseStr rest [] with
        | none => none
        | some (k, r1) =>
          match jsonSkipWs r1 with
          | ':' :: r2 =>
            match jParseVal f r2 with
            | none => none
            | some (v, r3) =>
              match jsonSkipWs r3 with
              | ',' :: r4 => jParseObjItems f (jsonSkipWs r4) ((k, v) :: acc) false
              | d :: r4 => if d = Char.ofNat 125 then some (.obj ((k, v) :: acc).reverse, r4) else none
              | [] => none
          | _ => none
      else none

/-- Parse array items after `[`. -/
def jParseArrItems : Nat → List Char → List Json → Bool → Option (Json × List Char)
  | 0, _, _, _ => none
  | f + 1, cs, acc, first =>
    match cs with
    | [] => none
    | c :: rest =>
      if c = ']' ∧ first then some (.arr acc.reverse, rest)
      else
        match jParseVal f (c :: rest) with
        | none => none
        | some (v, r1) =>
          match jsonSkipWs r1 with
          | ',' :: r2 => jParseArrItems f (jsonSkipWs r2) (v :: acc) false
          | ']' :: r2 => some (.arr (v :: acc).reverse, r2)
          | _ => none

end

/-- `json.loads`: parse one document, allow surrounding whitespace,
require full consumption.  `none` models `json.JSONDecodeError`. -/
def jsonLoads (s : String) : Option Json :=
  match jParseVal (s.length + 1) s.data with
  | some (v, rest) => if jsonSkipWs rest = [] then some v else none
  | none => none

/-- `dict`-style lookup: JSON objects decode to Python dicts, where a
repeated key keeps its last value. -/
def jLookup (kvs : List (String × Json)) (k : String) : Option Json :=
  (kvs.filterMap (fun p => if p.1 = k then some p.2 else none)).getLast?

/-- `response.get(key, default)`; `AttributeError` when the decoded value
is not a dict. -/
def jGetD (v : Json) (k : String) (d : Json) : Except PyErr Json :=
  match v with
  | .obj kvs => .ok ((jLookup kvs k).getD d)
  | _ => .error .attributeError

/-- `response.get(key)`: Python `None` for a missing key — and a JSON
`null` value also arrives as Python `None`, so both collapse to `none`. -/
def jGetOpt (v : Json) (k : String) : Except PyErr (Option Json) :=
  match v with
  | .obj kvs =>
    .ok (match jLookup kvs k with
         | some .null => none
         | x => x)
  | _ => .error .attributeError

/-- Python truthiness of a decoded JSON value. -/
def pyTruthy : Json → Bool
  | .null => false
  | .bool b => b
  | .num q => q ≠ 0
  | .str s => s ≠ ""
  | .arr xs => !xs.isEmpty
  | .obj kvs => !kvs.isEmpty

/-- `json.dumps` escaping of one character (default `ensure_ascii`). -/
def jsonEscChar (c : Char) : String :=
  if c = '"' then "\\\""
  else if c = '\\' then "\\\\"
  else if c = '\n' then "\\n"
  else if c = '\r' then "\\r"
  else if c = '\t' then "\\t"
  else if c.toNat < 0x20 ∨ 0x7f ≤ c.toNat then
    let hx := Nat.toDigits 16 c.toNat
    "\\u" ++ ⟨List.replicate (4 - hx.length) '0'⟩ ++ ⟨hx⟩
  else ⟨[c]⟩

/-- `json.dumps` of a string. -/
def jsonDumpStr (s : String) : String :=
  "\"" ++ String.join (s.data.map jsonEscChar) ++ "\""

/-- `json.dumps({"Command": command, "Parameters": parameters})` as both
clients build it (default separators). -/
def dumpsRequest (command : String) (params : List (String × String)) : String :=
  "\x7b\"Command\": " ++ jsonDumpStr command ++ ", \"Parameters\": \x7b" ++
    String.intercalate ", " (params.map (fun p => jsonDumpStr p.1 ++ ": " ++ jsonDumpStr p.2)) ++
    "\x7d\x7d"

/-! ### The socket read loop shared by both clients -/

/-- One scripted socket event: a received chunk, the peer closing the
connection (`recv` returns zero bytes), or the socket timeout firing. -/
inductive RecvEv
  | data (s : String)
  | closed
  | timedOut
deriving DecidableEq, Repr

/-- Outcome of the `while True: chunk = recv(4096) ...` loop. -/
inductive ReadEnd
  | complete (buf : String)
  | closedAt (buf : String)
  | timedOut
deriving DecidableEq, Repr

/-- The read loop of both `_execute` and `_execute_command`: concatenate
chunks until one contains a newline; a zero-byte read ends the loop with
`closedAt`; running out of events means the blocking `recv` hits the
configured socket timeout. -/
def readLoop : List RecvEv → String → ReadEnd
  | [], _ => .timedOut
  | .timedOut :: _, _ => .timedOut
  | .closed :: _, buf => .closedAt buf
  | .data s :: rest, buf =>
    let buf' := buf ++ s
    if pyIn "\n" s then .complete buf' else readLoop rest buf'

/-! ### `client.py`: `OpenSimClient` -/

/-- The structured payload attached by `_parse_output`. -/
inductive ParsedData
  | regions (l : List Region)
  | users (l : List User)
  | stats (s : Stats)
deriving Repr

/-- `client.CommandResult`.  `output` keeps the decoded JSON value of
`Result` (the dataclass does not enforce `str`); `error` is `None` or the
decoded `Error` value. -/
structure CommandResult where
  success : Bool
  output : Json
  data : Option ParsedData := none
  error : Option Json := none
deriving Repr

/-- Result of a call that can raise `ConnectionError`/`CommandError`.
Only the static part of each message is carried. -/
inductive ExecOut
  | result (r : CommandResult)
  | connectionError (msg : String)
  | commandError (msg : String)
deriving Repr

/-- `OpenSimClient`'s connection-relevant state: the `socket` attribute. -/
structure OpenSimState where
  socket : Option Unit
deriving DecidableEq, Repr

/-- `OpenSimClient.is_connected`: `self.socket is not None`. -/
def OpenSimClient.isConnected (st : OpenSimState) : Bool := st.socket.isSome

/-- `OpenSimClient.connect`, with `osOk` the outcome of the OS-level
`socket.connect` call (false = refusal / unreachable / timeout).  The
socket object is created and assigned to `self.socket` *before* the
blocking connect, so the attribute keeps the new socket even when
`ConnectionError` is raised. -/
def OpenSimClient.Connect (_st : OpenSimState) (osOk : Bool) :
    Except String Bool × OpenSimState :=
  let st1 : OpenSimState := { socket := some () }
  if osOk then (.ok true, st1)
  else (.error "Failed to connect", st1)

/-- `OpenSimClient._parse_output` (client.py lines 168-180); called inside
the `try`, so an exception from it is caught by `except Exception`. -/
def parseOutput (command : String) (output : Json) : Except PyErr (Option ParsedData) :=
  if pyIn "show regions" command then
    match output with
    | .str s => (parse_regionsE s).map (fun l => some (.regions l))
    | _ => .error .attributeError
  else if pyIn "show users" command then
    match output with
    | .str s => (parse_usersE s).map (fun l => some (.users l))
    | _ => .error .attributeError
  else if pyIn "show stats" command then
    match output with
    | .str s => (parse_statsE s).map (fun st => some (.stats st))
    | _ => .error .attributeError
  else pure none

/-- Response classification of `_execute` (client.py lines 146-159):
from the decoded response object to the `CommandResult`. -/
def osClassify (resp : Json) (command : String) (parseData : Bool) :
    Except PyErr CommandResult :=
  match jGetD resp "Success" (.bool false) with
  | .error e => .error e
  | .ok success =>
    match jGetD resp "Result" (.str "") with
    | .error e => .error e
    | .ok output =>
      match jGetOpt resp "Error" with
      | .error e => .error e
      | .ok error =>
        if !pyTruthy success then
          .ok { success := false, output := .str "", data := none, error := error }
        else
          match (if parseData then parseOutput command output else .ok none) with
          | .error e => .error e
          | .ok data =>
            .ok { success := true, output := output, data := data, error := none }

/-- `OpenSimClient._execute`.  `evs` scripts the socket reads; the second
component is the list of writes performed (`sendall` calls).  A zero-byte
read just breaks the loop and the buffer is decoded; `socket.timeout`
becomes `ConnectionError`, a decode failure `CommandError`, any other
exception of the `try` body `CommandError`. -/
def OpenSimClient.Exec (st : OpenSimState) (command : String) (parseData : Bool)
    (evs : List RecvEv) : ExecOut × List String :=
  match st.socket with
  | none => (.connectionError "Not connected to server", [])
  | some _ =>
    let sent := [dumpsRequest command [] ++ "\n"]
    match readLoop evs "" with
    | .timedOut => (.connectionError "Command timeout", sent)
    | .complete buf =>
      match jsonLoads (pyStrip buf) with
      | none => (.commandError "Invalid JSON response", sent)
      | some resp =>
        match osClassify resp command parseData with
        | .ok r => (.result r, sent)
        | .error _ => (.commandError "Command execution failed", sent)
    | .closedAt buf =>
      match jsonLoads (pyStrip buf) with
      | none => (.commandError "Invalid JSON response", sent)
      | some resp =>
        match osClassify resp command parseData with
        | .ok r => (.result r, sent)
        | .error _ => (.commandError "Command execution failed", sent)

/-! ### `pymote.py`: `PymoteClient` -/

/-- Result of `PymoteClient._execute_command`: the `Result` value, or a
raised `ConnectionError`/`CommandError`. -/
inductive PymOut
  | result (r : Json)
  | connectionError (msg : String)
  | commandError (msg : String)
deriving Repr

/-- `PymoteClient`'s connection state: `_socket` and `_connected`. -/
structure PymoteState where
  socket : Option Unit
  connected : Bool
deriving DecidableEq, Repr

/-- `PymoteClient.is_connected`: returns `self._connected`. -/
def PymoteClient.isConnected (st : PymoteState) : Bool := st.connected

/-- `PymoteClient.connect`: the socket is assigned first, but
`_connected = True` only happens after the OS-level connect succeeds. -/
def PymoteClient.Connect (st : PymoteState) (osOk : Bool) :
    Except String Bool × PymoteState :=
  let st1 : PymoteState := { st with socket := some () }
  if osOk then (.ok true, { st1 with connected := true })
  else (.error "Failed to connect", st1)

/-- `PymoteClient._execute_command` (pymote.py lines 90-143).  A zero-byte
read raises `ConnectionError("Connection closed by server")`, which the
`except Exception` clause re-raises unchanged. -/
def PymoteClient.ExecCmd (st : PymoteState) (command : String)
    (params : List (String × String)) (evs : List RecvEv) : PymOut × List String :=
  if !st.connected || st.socket.isNone then
    (.connectionError "Not connected to server", [])
  else
    let sent := [dumpsRequest command params ++ "\n"]
    match readLoop evs "" with
    | .closedAt _ => (.connectionError "Connection closed by server", sent)
    | .timedOut => (.connectionError "Command timeout", sent)
    | .complete buf =>
      match jsonLoads buf with
      | none => (.commandError "Invalid response from server", sent)
      | some resp =>
        match jGetD resp "Success" (.bool false) with
        | .error _ => (.commandError "Command execution error", sent)
        | .ok success =>
          if !pyTruthy success then
            (.commandError "Command failed", sent)
          else
            match jGetD resp "Result" (.str "") with
            | .ok r => (.result r, sent)
            | .error _ => (.commandError "Command execution error", sent)

/-! ### Helper lemmas: digits, stripping, numeric conversions -/

theorem takeWhile_all {p : Char → Bool} {l : List Char} (h : ∀ c ∈ l, p c = true) :
    l.takeWhile p = l :=
  List.takeWhile_eq_self_iff.mpr h

theorem dropWhile_all {p : Char → Bool} {l : List Char} (h : ∀ c ∈ l, p c = true) :
    l.dropWhile p = [] :=
  List.dropWhile_eq_nil_iff.mpr h

theorem takeWhile_app {p : Char → Bool} {ds : List Char} {x : Char} (rest : List Char)
    (h : ∀ c ∈ ds, p c = true) (hx : p x = false) :
    (ds ++ x :: rest).takeWhile p = ds := by
  induction ds with
  | nil => simp [List.takeWhile, hx]
  | cons d ds ih =>
    have hd : p d = true := h d (by simp)
    simp only [List.cons_append, List.takeWhile_cons, hd, if_true]
    rw [ih (fun c hc => h c (by simp [hc]))]

theorem dropWhile_app {p : Char → Bool} {ds : List Char} {x : Char} (rest : List Char)
    (h : ∀ c ∈ ds, p c = true) (hx : p x = false) :
    (ds ++ x :: rest).dropWhile p = x :: rest := by
  induction ds with
  | nil => simp [List.dropWhile, hx]
  | cons d ds ih =>
    have hd : p d = true := h d (by simp)
    simp only [List.cons_append, List.dropWhile_cons, hd, if_true]
    exact ih (fun c hc => h c (by simp [hc]))

theorem isDigit_not_space {c : Char} (h : c.isDigit = true) : pyIsSpace c = false := by
  have h1 : c ≠ ' ' := by intro hc; subst hc; simp [Char.isDigit] at h
  have h2 : c ≠ '\t' := by intro hc; subst hc; simp [Char.isDigit] at h
  have h3 : c ≠ '\n' := by intro hc; subst hc; simp [Char.isDigit] at h
  have h4 : c ≠ '\r' := by intro hc; subst hc; simp [Char.isDigit] at h
  have h5 : c ≠ '\x0b' := by intro hc; subst hc; simp [Char.isDigit] at h
  have h6 : c ≠ '\x0c' := by intro hc; subst hc; simp [Char.isDigit] at h
  simp [pyIsSpace, h1, h2, h3, h4, h5, h6]

theorem isDigit_ne_plus {c : Char} (h : c.isDigit = true) : c ≠ '+' := by
  intro hc; subst hc; simp [Char.isDigit] at h

theorem isDigit_ne_minus {c : Char} (h : c.isDigit = true) : c ≠ '-' := by
  intro hc; subst hc; simp [Char.isDigit] at h

theorem isDigit_ne_dot {c : Char} (h : c.isDigit = true) : c ≠ '.' := by
  intro hc; subst hc; simp [Char.isDigit] at h

theorem isDigit_ne_und {c : Char} (h : c.isDigit = true) : c ≠ '_' := by
  intro hc; subst hc; simp [Char.isDigit] at h

theorem strip_no_ws {cs : List Char} (h : ∀ c ∈ cs, pyIsSpace c = false) :
    pyStripChars cs = cs := by
  unfold pyStripChars
  have h1 : cs.dropWhile pyIsSpace = cs := by
    cases cs with
    | nil => rfl
    | cons c t => simp [List.dropWhile_cons, h c (by simp)]
  rw [h1]
  have h2 : cs.reverse.dropWhile pyIsSpace = cs.reverse := by
    cases hr : cs.reverse with
    | nil => rfl
    | cons c t =>
      have hc : c ∈ cs := by
        have : c ∈ cs.reverse := by rw [hr]; simp
        simpa using this
      simp [List.dropWhile_cons, h c hc]
  rw [h2, List.reverse_reverse]

theorem undRest_digits {l : List Char} (h : ∀ c ∈ l, c.isDigit = true) :
    undRest l = some l := by
  induction l with
  | nil => rfl
  | cons c t ih =>
    have hc : c.isDigit = true := h c (by simp)
    have hne : ¬(c = '_') := isDigit_ne_und hc
    unfold undRest
    simp only [hne, if_false, hc, if_true]
    rw [ih (fun d hd => h d (by simp [hd]))]
    rfl

/-- `int()` succeeds on a nonempty digit string. -/
theorem pyInt?_digits {ds : List Char} (hne : ds ≠ []) (h : ∀ c ∈ ds, c.isDigit = true) :
    pyInt? ⟨ds⟩ = some (digitsVal ds) := by
  obtain ⟨c, t, rfl⟩ := List.exists_cons_of_ne_nil hne
  have hc : c.isDigit = true := h c (by simp)
  have hstrip : pyStripChars (String.data ⟨c :: t⟩) = c :: t :=
    strip_no_ws (fun d hd => isDigit_not_space (h d hd))
  have hund := undRest_digits (l := t) (fun d hd => h d (List.mem_cons_of_mem _ hd))
  unfold pyInt?
  simp [hstrip, isDigit_ne_plus hc, isDigit_ne_minus hc, hc, hund]

/-- `float()` succeeds on a nonempty digit string. -/
theorem pyFloat?_digits {ds : List Char} (hne : ds ≠ []) (h : ∀ c ∈ ds, c.isDigit = true) :
    pyFloat? ⟨ds⟩ = some ((digitsVal ds : ℚ)) := by
  obtain ⟨c, t, rfl⟩ := List.exists_cons_of_ne_nil hne
  have hc : c.isDigit = true := h c (by simp)
  have hstrip : pyStripChars (String.data ⟨c :: t⟩) = c :: t :=
    strip_no_ws (fun d hd => isDigit_not_space (h d hd))
  have hbody : floatBody (c :: t) = some ((digitsVal (c :: t) : ℚ)) := by
    unfold floatBody
    simp [takeWhile_all h, dropWhile_all h, expPart]
  unfold pyFloat?
  simp [hstrip, isDigit_ne_plus hc, isDigit_ne_minus hc, hbody]

/-- `float()` succeeds on `digits.digits`. -/
theorem pyFloat?_dec {ds fs : List Char} (hne : ds ≠ [])
    (h : ∀ c ∈ ds, c.isDigit = true) (hf : ∀ c ∈ fs, c.isDigit = true) :
    pyFloat? ⟨ds ++ '.' :: fs⟩ = some (decVal ds fs) := by
  obtain ⟨c, t, rfl⟩ := List.exists_cons_of_ne_nil hne
  have hc : c.isDigit = true := h c (by simp)
  have hdot : ('.' : Char).isDigit = false := by decide
  have hdotws : pyIsSpace '.' = false := by decide
  have hall : ∀ d ∈ c :: (t ++ '.' :: fs), pyIsSpace d = false := by
    intro d hd
    rcases List.mem_cons.mp hd with rfl | hd
    · exact isDigit_not_space hc
    · rcases List.mem_append.mp hd with hd | hd
      · exact isDigit_not_space (h d (List.mem_cons_of_mem _ hd))
      · rcases List.mem_cons.mp hd with rfl | hd
        · exact hdotws
        · exact isDigit_not_space (hf d hd)
  have hstrip : pyStripChars (c :: (t ++ '.' :: fs)) = c :: (t ++ '.' :: fs) :=
    strip_no_ws hall
  have hTW : List.takeWhile Char.isDigit (c :: (t ++ '.' :: fs)) = c :: t := by
    have h0 := takeWhile_app fs h hdot
    simpa using h0
  have hDW : List.dropWhile Char.isDigit (c :: (t ++ '.' :: fs)) = '.' :: fs := by
    have h0 := dropWhile_app fs h hdot
    simpa using h0
  have hbody : floatBody (c :: (t ++ '.' :: fs)) = some (decVal (c :: t) fs) := by
    unfold floatBody
    simp [hTW, hDW, takeWhile_all hf, dropWhile_all hf, expPart]
  unfold pyFloat?
  simp [hstrip, isDigit_ne_plus hc, isDigit_ne_minus hc, hbody]

/-! ### Regex-capture lemmas: every captured token converts -/

/-- A `\d+\.?\d*` capture always converts with `float()`. -/
theorem numTok_float {cs tok rest : List Char} (h : numTok cs = some (tok, rest)) :
    ∃ q, pyFloat? ⟨tok⟩ = some q := by
  cases cs with
  | nil => simp [numTok] at h
  | cons c t =>
    unfold numTok at h
    by_cases hc : c.isDigit = true
    · simp only [hc, if_true] at h
      have hds : ∀ d ∈ List.takeWhile Char.isDigit (c :: t), d.isDigit = true :=
        fun d hd => List.mem_takeWhile_imp hd
      have hdsne : List.takeWhile Char.isDigit (c :: t) ≠ [] := by
        simp [List.takeWhile_cons, hc]
      by_cases hdot : (List.dropWhile Char.isDigit (c :: t)).head? = some '.'
      · simp only [hdot, if_pos rfl, if_true, Option.some.injEq, Prod.mk.injEq] at h
        obtain ⟨htok, -⟩ := h
        subst htok
        exact ⟨_, pyFloat?_dec hdsne hds (fun d hd => List.mem_takeWhile_imp hd)⟩
      · rw [if_neg hdot] at h
        simp only [Option.some.injEq, Prod.mk.injEq] at h
        obtain ⟨htok, -⟩ := h
        subst htok
        exact ⟨_, pyFloat?_digits hdsne hds⟩
    · simp [hc] at h

/-- The leftmost `\d+\.?\d*` capture always converts with `float()`. -/
theorem findNumTok_float {cs tok : List Char} (h : findNumTok cs = some tok) :
    ∃ q, pyFloat? ⟨tok⟩ = some q := by
  induction cs with
  | nil => simp [findNumTok] at h
  | cons c t ih =>
    unfold findNumTok at h
    cases hn : numTok (c :: t) with
    | some p =>
      rw [hn] at h
      cases p with
      | mk tok' rest =>
        simp only [Option.some.injEq] at h
        exact h ▸ numTok_float hn
    | none =>
      rw [hn] at h
      exact ih h

/-- The leftmost `\d+` capture always converts with `int()`. -/
theorem findIntTok_int {cs tok : List Char} (h : findIntTok cs = some tok) :
    ∃ n, pyInt? ⟨tok⟩ = some n := by
  induction cs with
  | nil => simp [findIntTok] at h
  | cons c t ih =>
    unfold findIntTok at h
    by_cases hc : c.isDigit = true
    · simp only [hc, if_true, Option.some.injEq] at h
      subst h
      exact ⟨_, pyInt?_digits (by simp [List.takeWhile_cons, hc])
        (fun d hd => List.mem_takeWhile_imp hd)⟩
    · simp only [hc, if_false, Bool.false_eq_true] at h
      exact ih h

/-- Every group captured by the position pattern converts with `float()`. -/
theorem posAt_floats {cs a b c : List Char} (h : posAt cs = some (a, b, c)) :
    (∃ q, pyFloat? ⟨a⟩ = some q) ∧ (∃ q, pyFloat? ⟨b⟩ = some q) ∧
      (∃ q, pyFloat? ⟨c⟩ = some q) := by
  unfold posAt at h
  cases h0 : expectChar '<' cs with
  | none => rw [h0] at h; simp at h
  | some r0 =>
    rw [h0] at h
    simp only [Option.bind_eq_bind, Option.some_bind] at h
    cases h1 : numTok r0 with
    | none => rw [h1] at h; simp at h
    | some p1 =>
      rw [h1] at h
      obtain ⟨a1, r1⟩ := p1
      simp only [Option.some_bind] at h
      cases h2 : expectChar ',' r1 with
      | none => rw [h2] at h; simp at h
      | some r2 =>
        rw [h2] at h
        simp only [Option.some_bind] at h
        cases h3 : numTok (r2.dropWhile pyIsSpace) with
        | none => rw [h3] at h; simp at h
        | some p2 =>
          rw [h3] at h
          obtain ⟨b1, r3⟩ := p2
          simp only [Option.some_bind] at h
          cases h4 : expectChar ',' r3 with
          | none => rw [h4] at h; simp at h
          | some r4 =>
            rw [h4] at h
            simp only [Option.some_bind] at h
            cases h5 : numTok (r4.dropWhile pyIsSpace) with
            | none => rw [h5] at h; simp at h
            | some p3 =>
              rw [h5] at h
              obtain ⟨c1, r5⟩ := p3
              simp only [Option.some_bind] at h
              cases h6 : expectChar '>' r5 with
              | none => rw [h6] at h; simp at h
              | some r6 =>
                rw [h6] at h
                simp only [Option.some_bind, Option.some.injEq] at h
                obtain ⟨rfl, rfl, rfl⟩ := h
                exact ⟨numTok_float h1, numTok_float h3, numTok_float h5⟩

/-- The three captures of a found position pattern convert with `float()`. -/
theorem findPos_floats {cs a b c : List Char} (h : findPos cs = some (a, b, c)) :
    (∃ q, pyFloat? ⟨a⟩ = some q) ∧ (∃ q, pyFloat? ⟨b⟩ = some q) ∧
      (∃ q, pyFloat? ⟨c⟩ = some q) := by
  induction cs with
  | nil => simp [findPos] at h
  | cons d t ih =>
    unfold findPos at h
    cases hp : posAt (d :: t) with
    | some tr =>
      obtain ⟨a1, b1, c1⟩ := tr
      rw [hp] at h
      simp only [Option.some.injEq, Prod.mk.injEq] at h
      obtain ⟨rfl, rfl, rfl⟩ := h
      exact posAt_floats hp
    | none =>
      rw [hp] at h
      exact ih h

/-! ### Substring-test characterization -/

theorem isPrefixList_iff {a b : List Char} : isPrefixList a b = true ↔ a <+: b := by
  induction a generalizing b with
  | nil => simp [isPrefixList]
  | cons x xs ih =>
    cases b with
    | nil => simp [isPrefixList]
    | cons y ys =>
      simp only [isPrefixList, Bool.and_eq_true, decide_eq_true_eq, ih,
        List.cons_prefix_cons]

theorem isInfixList_iff {n h : List Char} : isInfixList n h = true ↔ n <:+: h := by
  induction h with
  | nil => simp [isInfixList, isPrefixList_iff, List.prefix_nil, List.infix_nil]
  | cons c t ih =>
    simp only [isInfixList, Bool.or_eq_true, isPrefixList_iff, ih, List.infix_cons_iff]

/-- `pyIn` decides the substring relation on the underlying lists. -/
theorem pyIn_iff {needle hay : String} :
    pyIn needle hay = true ↔ needle.data <:+: hay.data := isInfixList_iff

/-- Substring transitivity at the level of `pyIn`. -/
theorem pyIn_trans {a b c : String} (h1 : pyIn a b = true) (h2 : pyIn b c = true) :
    pyIn a c = true :=
  pyIn_iff.mpr ((pyIn_iff.mp h1).trans (pyIn_iff.mp h2))

/-! ### No exception escapes the parsers -/

/-- The `try:` bodies can only raise what `except (ValueError, IndexError)`
catches: they never produce an `AttributeError`. -/
def NoAttr (x : Except PyErr α) : Prop := x ≠ .error .attributeError

theorem noAttr_bind {x : Except PyErr α} {f : α → Except PyErr β}
    (hx : NoAttr x) (hf : ∀ a, NoAttr (f a)) : NoAttr (x >>= f) := by
  cases x with
  | ok a => exact hf a
  | error e =>
    intro hcontra
    have : (Except.error e : Except PyErr β) = .error .attributeError := hcontra
    apply hx
    simp only [Except.error.injEq] at this
    rw [this]

theorem noAttr_pure (a : α) : NoAttr (pure a : Except PyErr α) := by
  intro h
  simp [pure, Except.pure] at h

theorem pyGet_noAttr (l : List α) (i : Nat) : NoAttr (pyGet l i) := by
  unfold pyGet
  cases l.get? i <;> simp [NoAttr]

theorem pyIntE_noAttr (s : String) : NoAttr (pyIntE s) := by
  unfold pyIntE
  cases pyInt? s <;> simp [NoAttr]

theorem pyFloatE_noAttr (s : String) : NoAttr (pyFloatE s) := by
  unfold pyFloatE
  cases pyFloat? s <;> simp [NoAttr]

theorem pyGet_error {l : List α} {i : Nat} {e : PyErr} (h : pyGet l i = .error e) :
    e = .indexError := by
  unfold pyGet at h
  cases hg : l.get? i <;> rw [hg] at h <;> simp_all

theorem pyIntE_error {s : String} {e : PyErr} (h : pyIntE s = .error e) :
    e = .valueError := by
  unfold pyIntE at h
  cases hg : pyInt? s <;> rw [hg] at h <;> simp_all

theorem pyFloatE_error {s : String} {e : PyErr} (h : pyFloatE s = .error e) :
    e = .valueError := by
  unfold pyFloatE at h
  cases hg : pyFloat? s <;> rw [hg] at h <;> simp_all

theorem noAttr_error_iff {e : PyErr} {α : Type} :
    NoAttr (.error e : Except PyErr α) ↔ e ≠ .attributeError := by
  simp [NoAttr]

theorem locOf_noAttr (parts : List String) : NoAttr (locOf parts) := by
  unfold locOf
  split
  · split
    next e h => simp [NoAttr, pyGet_error h]
    next p2 h =>
      split
      · split
        next e h2 => simp [NoAttr, pyGet_error h2]
        next lx h2 =>
          split
          next e h3 => simp [NoAttr, pyIntE_error h3]
          next x h3 =>
            split
            next e h4 => simp [NoAttr, pyGet_error h4]
            next ly h4 =>
              split
              next e h5 => simp [NoAttr, pyIntE_error h5]
              next y h5 => simp [NoAttr]
      · simp [NoAttr]
  · simp [NoAttr]

theorem szOf_noAttr (parts : List String) : NoAttr (szOf parts) := by
  unfold szOf
  split
  · split
    next e h => simp [NoAttr, pyGet_error h]
    next p3 h =>
      split
      · split
        next e h2 => simp [NoAttr, pyGet_error h2]
        next sx h2 =>
          split
          next e h3 => simp [NoAttr, pyIntE_error h3]
          next x h3 =>
            split
            next e h4 => simp [NoAttr, pyGet_error h4]
            next sy h4 =>
              split
              next e h5 => simp [NoAttr, pyIntE_error h5]
              next y h5 => simp [NoAttr]
      · simp [NoAttr]
  · simp [NoAttr]

theorem portOf_noAttr (parts : List String) : NoAttr (portOf parts) := by
  unfold portOf
  split
  · split
    next e h => simp [NoAttr, pyGet_error h]
    next p4 h =>
      split
      next e h2 => simp [NoAttr, pyIntE_error h2]
      next p h2 => simp [NoAttr]
  · simp [NoAttr]

theorem posOf_noAttr (parts : List String) (line : String) :
    NoAttr (posOf parts line) := by
  unfold posOf
  split
  · split
    next a b c h =>
      split
      next e h2 => simp [NoAttr, pyFloatE_error h2]
      next x h2 =>
        split
        next e h3 => simp [NoAttr, pyFloatE_error h3]
        next y h3 =>
          split
          next e h4 => simp [NoAttr, pyFloatE_error h4]
          next z h4 => simp [NoAttr]
    next h => simp [NoAttr]
  · simp [NoAttr]

theorem tryRegion_noAttr (parts : List String) : NoAttr (tryRegion parts) := by
  unfold tryRegion
  split
  next e h => simp [NoAttr, pyGet_error h]
  next name h =>
    split
    next e h2 =>
      have he : e = .indexError := by
        by_cases hl : 1 < parts.length
        · rw [if_pos hl] at h2; exact pyGet_error h2
        · rw [if_neg hl] at h2; simp at h2
      simp [NoAttr, he]
    next uuid h2 =>
      split
      next e h3 =>
        have := locOf_noAttr parts
        rw [h3, noAttr_error_iff] at this
        exact noAttr_error_iff.mpr this
      next loc h3 =>
        split
        next e h4 =>
          have := szOf_noAttr parts
          rw [h4, noAttr_error_iff] at this
          exact noAttr_error_iff.mpr this
        next sz h4 =>
          split
          next e h5 =>
            have := portOf_noAttr parts
            rw [h5, noAttr_error_iff] at this
            exact noAttr_error_iff.mpr this
          next port h5 => simp [NoAttr]

theorem tryUser_noAttr (parts : List String) (line : String) :
    NoAttr (tryUser parts line) := by
  unfold tryUser
  split
  next e h => simp [NoAttr, pyGet_error h]
  next first h =>
    split
    next e h2 =>
      have he : e = .indexError := by
        by_cases hl : 1 < parts.length
        · rw [if_pos hl] at h2; exact pyGet_error h2
        · rw [if_neg hl] at h2; simp at h2
      simp [NoAttr, he]
    next last h2 =>
      split
      next e h3 =>
        have he : e = .indexError := by
          by_cases hl : 2 < parts.length
          · rw [if_pos hl] at h3
            cases hg : pyGet parts 2 with
            | ok a => rw [hg] at h3; simp [Except.map] at h3
            | error e2 =>
              rw [hg] at h3
              simp only [Except.map] at h3
              cases h3
              exact pyGet_error hg
          · rw [if_neg hl] at h3; simp at h3
        simp [NoAttr, he]
      next region h3 =>
        split
        next e h4 =>
          have := posOf_noAttr parts line
          rw [h4, noAttr_error_iff] at this
          exact noAttr_error_iff.mpr this
        next position h4 => simp [NoAttr]

/-- Every line of `parse_regions` either yields a region or is skipped. -/
theorem parseRegionLine_ok (line : String) : ∃ o, parseRegionLine line = .ok o := by
  unfold parseRegionLine
  split
  · exact ⟨none, rfl⟩
  split
  · exact ⟨none, rfl⟩
  cases h : tryRegion (pySplitWs line) with
  | ok r => exact ⟨some r, rfl⟩
  | error e =>
    cases e with
    | valueError => exact ⟨none, rfl⟩
    | indexError => exact ⟨none, rfl⟩
    | attributeError => exact absurd h (tryRegion_noAttr _)

/-- Every line of `parse_users` either yields a user or is skipped. -/
theorem parseUserLine_ok (line : String) : ∃ o, parseUserLine line = .ok o := by
  unfold parseUserLine
  split
  · exact ⟨none, rfl⟩
  split
  · exact ⟨none, rfl⟩
  cases h : tryUser (pySplitWs line) line with
  | ok u => exact ⟨some u, rfl⟩
  | error e =>
    cases e with
    | valueError => exact ⟨none, rfl⟩
    | indexError => exact ⟨none, rfl⟩
    | attributeError => exact absurd h (tryUser_noAttr _ _)

theorem linesFilterE_ok {f : String → Except PyErr (Option α)}
    (hf : ∀ l, ∃ o, f l = .ok o) (ls : List String) :
    ∃ r, linesFilterE f ls = .ok r := by
  induction ls with
  | nil => exact ⟨[], rfl⟩
  | cons l t ih =>
    obtain ⟨o, ho⟩ := hf l
    obtain ⟨r, hr⟩ := ih
    cases o with
    | none => exact ⟨r, by simp [linesFilterE, ho, hr]⟩
    | some a => exact ⟨a :: r, by simp [linesFilterE, ho, hr, Except.map]⟩

/-- `statsLineStep` never raises: each branch's capture converts. -/
theorem statsLineStep_eq (st : Stats) (line : String) :
    statsLineStep st line = .ok (statsStepPure st line) := by
  unfold statsLineStep statsStepPure
  split
  · cases h : findNumTok (pyStrip line).data with
    | some tok =>
      obtain ⟨q, hq⟩ := findNumTok_float h
      simp [pyFloatE, hq, Except.map]
    | none => rfl
  split
  · cases h : findNumTok (pyStrip line).data with
    | some tok =>
      obtain ⟨q, hq⟩ := findNumTok_float h
      simp [pyFloatE, hq, Except.map]
    | none => rfl
  split
  · cases h : findIntTok (pyStrip line).data with
    | some tok =>
      obtain ⟨n, hn⟩ := findIntTok_int h
      simp [pyIntE, hn, Except.map]
    | none => rfl
  split
  · cases h : findIntTok (pyStrip line).data with
    | some tok =>
      obtain ⟨n, hn⟩ := findIntTok_int h
      simp [pyIntE, hn, Except.map]
    | none => rfl
  split
  · cases h : findIntTok (pyStrip line).data with
    | some tok =>
      obtain ⟨n, hn⟩ := findIntTok_int h
      simp [pyIntE, hn, Except.map]
    | none => rfl
  split
  · cases h : findNumTok (pyStrip line).data with
    | some tok =>
      obtain ⟨q, hq⟩ := findNumTok_float h
      simp [pyFloatE, hq, Except.map]
    | none => rfl
  rfl

theorem statsFoldE_eq (ls : List String) (st : Stats) :
    statsFoldE st ls = .ok (ls.foldl statsStepPure st) := by
  induction ls generalizing st with
  | nil => rfl
  | cons l t ih =>
    unfold statsFoldE
    rw [statsLineStep_eq]
    exact ih _

/-- `parse_stats` as a total fold. -/
theorem parse_statsE_eq (s : String) :
    parse_statsE s = .ok ((splitLines (pyStrip s)).foldl statsStepPure {}) :=
  statsFoldE_eq _ _

/-! ### Stats-field update discipline (for the keyword-precedence claims) -/

/-- A line can influence the `fps`/`physics_fps` fields only if its
lowercased strip contains `fps`. -/
def touchesFps (l : String) : Bool := pyIn "fps" (pyLower (pyStrip l))

/-- A line can influence the `agents` field only if its lowercased strip
contains `agents`. -/
def touchesAgents (l : String) : Bool := pyIn "agents" (pyLower (pyStrip l))

theorem step_preserves_fps_physics {l : String} (h : touchesFps l = false) (st : Stats) :
    (statsStepPure st l).fps = st.fps ∧ (statsStepPure st l).physics_fps = st.physics_fps := by
  have h0 : pyIn "fps" (pyLower (pyStrip l)) = false := h
  have h2 : pyIn "physics fps" (pyLower (pyStrip l)) = false := by
    cases hb : pyIn "physics fps" (pyLower (pyStrip l)) with
    | false => rfl
    | true =>
      have := pyIn_trans (show pyIn "fps" "physics fps" = true from by decide) hb
      rw [h0] at this
      exact absurd this (by simp)
  unfold statsStepPure
  constructor <;> (repeat' split) <;> simp_all

theorem step_preserves_agents {l : String} (h : touchesAgents l = false) (st : Stats) :
    (statsStepPure st l).agents = st.agents := by
  have h0 : pyIn "agents" (pyLower (pyStrip l)) = false := h
  unfold statsStepPure
  (repeat' split) <;> simp_all

/-- Evaluation of the step on the concrete line `"FPS: 55.0"`. -/
theorem step_fps55 (st : Stats) : statsStepPure st "FPS: 55.0" = { st with fps := some 55 } := by
  unfold statsStepPure
  rw [if_pos (show (pyIn "fps" (pyLower (pyStrip "FPS: 55.0")) &&
    !pyIn "physics" (pyLower (pyStrip "FPS: 55.0"))) = true from by decide)]
  rw [show findNumTok (pyStrip "FPS: 55.0").data = some ['5', '5', '.', '0'] from by decide]
  have hv : pyFloat? ⟨['5', '5', '.', '0']⟩ = some 55 := by
    have h := @pyFloat?_dec ['5', '5'] ['0'] (by decide) (by decide) (by decide)
    rw [show (['5', '5'] ++ '.' :: ['0'] : List Char) = ['5', '5', '.', '0'] from rfl] at h
    rw [h]
    rw [show decVal ['5', '5'] ['0'] = 55 from by
      unfold decVal
      rw [show digitsVal ['5', '5'] = 55 from by decide,
        show digitsVal ['0'] = 0 from by decide]
      norm_num]
  simp only [hv]

/-- Evaluation of the step on `"Physics FPS: 54.2"`: it sets
`physics_fps` (to 54.2 = 271/5) and nothing else. -/
theorem step_phys542 (st : Stats) :
    statsStepPure st "Physics FPS: 54.2" = { st with physics_fps := some (271 / 5 : ℚ) } := by
  unfold statsStepPure
  rw [if_neg (show ¬((pyIn "fps" (pyLower (pyStrip "Physics FPS: 54.2")) &&
    !pyIn "physics" (pyLower (pyStrip "Physics FPS: 54.2"))) = true) from by decide)]
  rw [if_pos (show pyIn "physics fps" (pyLower (pyStrip "Physics FPS: 54.2")) = true from by decide)]
  rw [show findNumTok (pyStrip "Physics FPS: 54.2").data = some ['5', '4', '.', '2'] from by decide]
  have hv : pyFloat? ⟨['5', '4', '.', '2']⟩ = some (271 / 5 : ℚ) := by
    have h := @pyFloat?_dec ['5', '4'] ['2'] (by decide) (by decide) (by decide)
    rw [show (['5', '4'] ++ '.' :: ['2'] : List Char) = ['5', '4', '.', '2'] from rfl] at h
    rw [h]
    rw [show decVal ['5', '4'] ['2'] = 271 / 5 from by
      unfold decVal
      rw [show digitsVal ['5', '4'] = 54 from by decide,
        show digitsVal ['2'] = 2 from by decide]
      norm_num]
  simp only [hv]

/-- Evaluation of the step on `"FPS: 1"`. -/
theorem step_fps1 (st : Stats) : statsStepPure st "FPS: 1" = { st with fps := some 1 } := by
  unfold statsStepPure
  rw [if_pos (show (pyIn "fps" (pyLower (pyStrip "FPS: 1")) &&
    !pyIn "physics" (pyLower (pyStrip "FPS: 1"))) = true from by decide)]
  rw [show findNumTok (pyStrip "FPS: 1").data = some ['1'] from by decide]
  have hv : pyFloat? ⟨['1']⟩ = some 1 := by
    rw [pyFloat?_digits (by decide) (by decide)]
    rw [show digitsVal ['1'] = 1 from by decide]
    norm_num
  simp only [hv]

/-- Evaluation of the step on `"Agents: 10"`. -/
theorem step_agents10 (st : Stats) :
    statsStepPure st "Agents: 10" = { st with agents := some 10 } := by
  unfold statsStepPure
  rw [if_neg (show ¬((pyIn "fps" (pyLower (pyStrip "Agents: 10")) &&
    !pyIn "physics" (pyLower (pyStrip "Agents: 10"))) = true) from by decide)]
  rw [if_neg (show ¬(pyIn "physics fps" (pyLower (pyStrip "Agents: 10")) = true) from by decide)]
  rw [if_pos (show (pyIn "agents" (pyLower (pyStrip "Agents: 10")) &&
    !pyIn "child" (pyLower (pyStrip "Agents: 10"))) = true from by decide)]
  rw [show findIntTok (pyStrip "Agents: 10").data = some ['1', '0'] from by decide]
  simp only [show pyInt? ⟨['1', '0']⟩ = some 10 from by decide]

/-- The `"Child Agents: 3"` line matches no rule: it sets nothing. -/
theorem step_child3 (st : Stats) : statsStepPure st "Child Agents: 3" = st := rfl

theorem foldl_preserves_fps {ls : List String}
    (h : ∀ l ∈ ls, touchesFps l = false ∨ l = "Physics FPS: 54.2") (st : Stats) :
    (ls.foldl statsStepPure st).fps = st.fps := by
  induction ls generalizing st with
  | nil => rfl
  | cons l t ih =>
    rw [List.foldl_cons]
    rcases h l (by simp) with hl | rfl
    · rw [ih (fun x hx => h x (by simp [hx])) _]
      exact (step_preserves_fps_physics hl st).1
    · rw [ih (fun x hx => h x (by simp [hx])) _, step_phys542]

theorem foldl_preserves_physics {ls : List String}
    (h : ∀ l ∈ ls, touchesFps l = false ∨ l = "FPS: 55.0") (st : Stats) :
    (ls.foldl statsStepPure st).physics_fps = st.physics_fps := by
  induction ls generalizing st with
  | nil => rfl
  | cons l t ih =>
    rw [List.foldl_cons]
    rcases h l (by simp) with hl | rfl
    · rw [ih (fun x hx => h x (by simp [hx])) _]
      exact (step_preserves_fps_physics hl st).2
    · rw [ih (fun x hx => h x (by simp [hx])) _, step_fps55]

theorem foldl_preserves_agents {ls : List String}
    (h : ∀ l ∈ ls, touchesAgents l = false ∨ l = "Child Agents: 3") (st : Stats) :
    (ls.foldl statsStepPure st).agents = st.agents := by
  induction ls generalizing st with
  | nil => rfl
  | cons l t ih =>
    rw [List.foldl_cons]
    rcases h l (by simp) with hl | rfl
    · rw [ih (fun x hx => h x (by simp [hx])) _]
      exact step_preserves_agents hl st
    · rw [ih (fun x hx => h x (by simp [hx])) _, step_child3]

theorem foldl_fps_55 {ls : List String}
    (h : ∀ l ∈ ls, touchesFps l = false ∨ l = "FPS: 55.0" ∨ l = "Physics FPS: 54.2")
    (hmem : "FPS: 55.0" ∈ ls) (st : Stats) :
    (ls.foldl statsStepPure st).fps = some 55 := by
  induction ls generalizing st with
  | nil => simp at hmem
  | cons l t ih =>
    rw [List.foldl_cons]
    by_cases hm : "FPS: 55.0" ∈ t
    · exact ih (fun x hx => h x (by simp [hx])) hm _
    · have hl : l = "FPS: 55.0" := by
        rcases List.mem_cons.mp hmem with h' | h'
        · exact h'.symm
        · exact absurd h' hm
      subst hl
      rw [step_fps55]
      have ht : ∀ x ∈ t, touchesFps x = false ∨ x = "Physics FPS: 54.2" := by
        intro x hx
        rcases h x (by simp [hx]) with h1 | h1 | h1
        · exact .inl h1
        · exact absurd (h1 ▸ hx) hm
        · exact .inr h1
      rw [foldl_preserves_fps ht]

theorem foldl_physics_542 {ls : List String}
    (h : ∀ l ∈ ls, touchesFps l = false ∨ l = "FPS: 55.0" ∨ l = "Physics FPS: 54.2")
    (hmem : "Physics FPS: 54.2" ∈ ls) (st : Stats) :
    (ls.foldl statsStepPure st).physics_fps = some (271 / 5 : ℚ) := by
  induction ls generalizing st with
  | nil => simp at hmem
  | cons l t ih =>
    rw [List.foldl_cons]
    by_cases hm : "Physics FPS: 54.2" ∈ t
    · exact ih (fun x hx => h x (by simp [hx])) hm _
    · have hl : l = "Physics FPS: 54.2" := by
        rcases List.mem_cons.mp hmem with h' | h'
        · exact h'.symm
        · exact absurd h' hm
      subst hl
      rw [step_phys542]
      have ht : ∀ x ∈ t, touchesFps x = false ∨ x = "FPS: 55.0" := by
        intro x hx
        rcases h x (by simp [hx]) with h1 | h1 | h1
        · exact .inl h1
        · exact .inr h1
        · exact absurd (h1 ▸ hx) hm
      rw [foldl_preserves_physics ht]

theorem foldl_agents_10 {ls : List String}
    (h : ∀ l ∈ ls, touchesAgents l = false ∨ l = "Agents: 10" ∨ l = "Child Agents: 3")
    (hmem : "Agents: 10" ∈ ls) (st : Stats) :
    (ls.foldl statsStepPure st).agents = some 10 := by
  induction ls generalizing st with
  | nil => simp at hmem
  | cons l t ih =>
    rw [List.foldl_cons]
    by_cases hm : "Agents: 10" ∈ t
    · exact ih (fun x hx => h x (by simp [hx])) hm _
    · have hl : l = "Agents: 10" := by
        rcases List.mem_cons.mp hmem with h' | h'
        · exact h'.symm
        · exact absurd h' hm
      subst hl
      rw [step_agents10]
      have ht : ∀ x ∈ t, touchesAgents x = false ∨ x = "Child Agents: 3" := by
        intro x hx
        rcases h x (by simp [hx]) with h1 | h1 | h1
        · exact .inl h1
        · exact absurd (h1 ▸ hx) hm
        · exact .inr h1
      rw [foldl_preserves_agents ht]

/-! ### Client lemmas -/

/-- If the peer closes before any chunk containing a newline arrived, the
read loop ends in `closedAt`. -/
theorem readLoop_closed {pre : List RecvEv} (post : List RecvEv) (buf : String)
    (h : ∀ e ∈ pre, ∃ s, e = RecvEv.data s ∧ pyIn "\n" s = false) :
    ∃ b, readLoop (pre ++ RecvEv.closed :: post) buf = .closedAt b := by
  induction pre generalizing buf with
  | nil => exact ⟨buf, rfl⟩
  | cons e t ih =>
    obtain ⟨s, rfl, hs⟩ := h e (by simp)
    rw [List.cons_append]
    unfold readLoop
    rw [if_neg (by simp [hs])]
    exact ih _ (fun x hx => h x (by simp [hx]))

/-- Field discipline of the classified `CommandResult`. -/
theorem osClassify_invariants {resp : Json} {command : String} {parseData : Bool}
    {r : CommandResult} (h : osClassify resp command parseData = .ok r) :
    (r.success = false → r.output = .str "" ∧ jGetOpt resp "Error" = .ok r.error) ∧
      (r.success = true → r.error = none) := by
  unfold osClassify at h
  split at h
  · exact absurd h (by simp)
  next success h1 =>
    split at h
    · exact absurd h (by simp)
    next output h2 =>
      split at h
      · exact absurd h (by simp)
      next error h3 =>
        split at h
        · cases h
          exact ⟨fun _ => ⟨rfl, h3⟩, fun htrue => by simp at htrue⟩
        · split at h
          · exact absurd h (by simp)
          next data h4 =>
            cases h
            exact ⟨fun hfalse => by simp at hfalse, fun _ => rfl⟩

/-- A `CommandResult` is produced by `_execute` only through
`osClassify`. -/
theorem osExec_result {st : OpenSimState} {command : String} {parseData : Bool}
    {evs : List RecvEv} {r : CommandResult}
    (h : (OpenSimClient.Exec st command parseData evs).1 = .result r) :
    ∃ resp, osClassify resp command parseData = .ok r := by
  unfold OpenSimClient.Exec at h
  split at h
  · exact absurd h (by simp)
  next sock hs =>
    split at h
    · exact absurd h (by simp)
    all_goals
      next buf hbuf =>
        cases hj : jsonLoads (pyStrip buf) with
        | none =>
          simp only [hj] at h
          exact ExecOut.noConfusion h
        | some resp =>
          simp only [hj] at h
          cases hc : osClassify resp command parseData with
          | ok r' =>
            simp only [hc, ExecOut.result.injEq] at h
            exact ⟨resp, h ▸ hc⟩
          | error e =>
            simp only [hc] at h
            exact ExecOut.noConfusion h

/-- On a peer close before any newline, `_execute` either fails with
`CommandError` or returns a decoded result — never `ConnectionError`. -/
theorem osExec_closed_not_connErr {st : OpenSimState} {command : String}
    {parseData : Bool} {pre post : List RecvEv} (hs : st.socket.isSome = true)
    (h : ∀ e ∈ pre, ∃ s, e = RecvEv.data s ∧ pyIn "\n" s = false) :
    (∃ m, (OpenSimClient.Exec st command parseData (pre ++ RecvEv.closed :: post)).1 =
        .commandError m) ∨
      (∃ r, (OpenSimClient.Exec st command parseData (pre ++ RecvEv.closed :: post)).1 =
        .result r) := by
  obtain ⟨u, hu⟩ := Option.isSome_iff_exists.mp hs
  obtain ⟨b, hb⟩ := readLoop_closed post "" h
  unfold OpenSimClient.Exec
  simp only [hu, hb]
  cases hj : jsonLoads (pyStrip b) with
  | none => exact .inl ⟨"Invalid JSON response", by simp [hj]⟩
  | some resp =>
    cases hc : osClassify resp command parseData with
    | ok r => exact .inr ⟨r, by simp [hj, hc]⟩
    | error e => exact .inl ⟨"Command execution failed", by simp [hj, hc]⟩

/-- `_execute_command` raises `ConnectionError` on a peer close before any
newline. -/
theorem pymExec_closed {st : PymoteState} {command : String}
    {params : List (String × String)} {pre post : List RecvEv}
    (hc : st.connected = true) (hs : st.socket.isSome = true)
    (h : ∀ e ∈ pre, ∃ s, e = RecvEv.data s ∧ pyIn "\n" s = false) :
    (PymoteClient.ExecCmd st command params (pre ++ RecvEv.closed :: post)).1 =
      .connectionError "Connection closed by server" := by
  obtain ⟨u, hu⟩ := Option.isSome_iff_exists.mp hs
  obtain ⟨b, hb⟩ := readLoop_closed post "" h
  unfold PymoteClient.ExecCmd
  rw [if_neg (by simp [hc, hu])]
  simp only [hb]

theorem pyGet_ok_of_lt {l : List α} {i : Nat} (h : i < l.length) :
    ∃ x, pyGet l i = .ok x := by
  unfold pyGet
  cases hg : l.get? i with
  | some a => exact ⟨a, rfl⟩
  | none => exact absurd (List.get?_eq_none.mp hg) (by omega)

/-! ### The claims -/

/-- C3: the region parser, given the header line followed by the `Alpha`
data line, returns exactly one Region with name `Alpha`, location
(1000, 1000), size (256, 256) and port 9000; a data line whose location
column is the malformed token `abc` yields location (0, 0); and any line
splitting into fewer than 3 whitespace columns contributes no Region. -/
theorem C3_region_parsing :
    parse_regionsE "Region Name  Region UUID  Location  Size  Port\nAlpha  1111-...  1000,1000  256x256  9000" =
      .ok [{ name := "Alpha", uuid := "1111-...", location_x := 1000, location_y := 1000,
             size_x := 256, size_y := 256, external_hostname := none, port := some 9000 }] ∧
    parse_regionsE "Beta 2222 abc 256x256 9000" =
      .ok [{ name := "Beta", uuid := "2222", location_x := 0, location_y := 0,
             size_x := 256, size_y := 256, external_hostname := none, port := some 9000 }] ∧
    ∀ line : String, (pySplitWs line).length < 3 → parseRegionLine line = .ok none := by
  refine ⟨rfl, rfl, ?_⟩
  intro line h
  unfold parseRegionLine
  simp [h]

/-- C3 witness: the short-line clause applied at the concrete two-column
line `"a b"`. -/
theorem C3_region_parsing_witness : parseRegionLine "a b" = .ok none :=
  C3_region_parsing.2.2 "a b" (by decide)

/-- C6: for every input string, each of the three output parsers returns
normally — a list for regions and users, one Stats record for stats — and
no exception escapes. -/
theorem C6_parsers_never_raise (s : String) :
    (∃ l, parse_regionsE s = .ok l) ∧ (∃ l, parse_usersE s = .ok l) ∧
      (∃ st, parse_statsE s = .ok st) :=
  ⟨linesFilterE_ok parseRegionLine_ok _, linesFilterE_ok parseUserLine_ok _,
    ⟨_, parse_statsE_eq s⟩⟩

/-- C10: the user parser skips every line containing the substring `Name`
(case-sensitive) anywhere — including a data line whose region column is
`NameOfRegion`, which contributes no User. -/
theorem C10_name_substring_skips :
    (∀ line : String, pyIn "Name" line = true → parseUserLine line = .ok none) ∧
    parse_usersE "John Smith NameOfRegion <1, 2, 3>" = .ok [] := by
  constructor
  · intro line h
    unfold parseUserLine
    rw [if_pos (by simp [h])]
  · rfl

/-- C10 witness: the skip clause applied to the concrete data line. -/
theorem C10_name_substring_skips_witness :
    parseUserLine "John Smith NameOfRegion <1, 2, 3>" = .ok none :=
  C10_name_substring_skips.1 "John Smith NameOfRegion <1, 2, 3>" (by decide)

/-- C7: executing any command on a not-connected instance fails with
`ConnectionError` and writes nothing to the socket — for both clients. -/
theorem C7_not_connected :
    (∀ (st : OpenSimState) (command : String) (parseData : Bool) (evs : List RecvEv),
      OpenSimClient.isConnected st = false →
        OpenSimClient.Exec st command parseData evs =
          (.connectionError "Not connected to server", [])) ∧
    (∀ (st : PymoteState) (command : String) (params : List (String × String))
      (evs : List RecvEv), PymoteClient.isConnected st = false →
        PymoteClient.ExecCmd st command params evs =
          (.connectionError "Not connected to server", [])) := by
  constructor
  · intro st command parseData evs h
    have hn : st.socket = none := by
      cases hs : st.socket with
      | none => rfl
      | some u =>
        unfold OpenSimClient.isConnected at h
        rw [hs] at h
        simp at h
    unfold OpenSimClient.Exec
    simp only [hn]
  · intro st command params evs h
    have hc : st.connected = false := h
    unfold PymoteClient.ExecCmd
    rw [if_pos (by simp [hc])]

/-- C7 witness: both clauses applied to concrete disconnected states. -/
theorem C7_not_connected_witness :
    OpenSimClient.Exec ⟨none⟩ "backup" false [] =
      (.connectionError "Not connected to server", []) ∧
    PymoteClient.ExecCmd ⟨none, false⟩ "backup" [] [] =
      (.connectionError "Not connected to server", []) :=
  ⟨C7_not_connected.1 ⟨none⟩ "backup" false [] rfl,
   C7_not_connected.2 ⟨none, false⟩ "backup" [] [] rfl⟩

/-- C8 (amended): after a failed `connect`, `PymoteClient` that was
disconnected stays disconnected (`is_connected() = false`); but
`OpenSimClient.is_connected()` returns true after any failed connect,
because the socket attribute is assigned before the blocking connect. -/
theorem C8_connect_failure_state :
    (∀ st : PymoteState, PymoteClient.isConnected st = false →
      PymoteClient.isConnected (PymoteClient.Connect st false).2 = false) ∧
    (∀ st : OpenSimState,
      OpenSimClient.isConnected (OpenSimClient.Connect st false).2 = true) := by
  constructor
  · intro st h
    have hc : st.connected = false := h
    unfold PymoteClient.Connect
    simp [PymoteClient.isConnected, hc]
  · intro st
    rfl

/-- C8 is false as stated for `OpenSimClient`: a failed connect from the
disconnected state raises `ConnectionError` yet leaves `is_connected()`
returning true. -/
theorem C8_claim_false :
    OpenSimClient.isConnected ⟨none⟩ = false ∧
    (OpenSimClient.Connect ⟨none⟩ false).1 = .error "Failed to connect" ∧
    OpenSimClient.isConnected (OpenSimClient.Connect ⟨none⟩ false).2 = true :=
  ⟨rfl, rfl, rfl⟩

/-- C8 witness: the `PymoteClient` clause applied to the fresh state. -/
theorem C8_connect_failure_state_witness :
    PymoteClient.isConnected (PymoteClient.Connect ⟨none, false⟩ false).2 = false :=
  C8_connect_failure_state.1 ⟨none, false⟩ rfl

/-- C1 (amended): on a zero-length read before any newline,
`PymoteClient._execute_command` fails with
`ConnectionError("Connection closed by server")`; `OpenSimClient._execute`
instead leaves the read loop and decodes whatever was buffered, producing
`CommandError` (e.g. on the empty buffer) or a normal result — never a
`ConnectionError`. -/
theorem C1_peer_close_classification (st : PymoteState) (ost : OpenSimState)
    (command : String) (params : List (String × String)) (parseData : Bool)
    (pre post : List RecvEv) (hc : st.connected = true) (hs : st.socket.isSome = true)
    (hos : ost.socket.isSome = true)
    (h : ∀ e ∈ pre, ∃ s, e = RecvEv.data s ∧ pyIn "\n" s = false) :
    (PymoteClient.ExecCmd st command params (pre ++ RecvEv.closed :: post)).1 =
      .connectionError "Connection closed by server" ∧
    ((∃ m, (OpenSimClient.Exec ost command parseData (pre ++ RecvEv.closed :: post)).1 =
        .commandError m) ∨
      (∃ r, (OpenSimClient.Exec ost command parseData (pre ++ RecvEv.closed :: post)).1 =
        .result r)) :=
  ⟨pymExec_closed hc hs h, osExec_closed_not_connErr hos h⟩

/-- C1 is false as claimed for `OpenSimClient._execute`: an immediate peer
close yields `CommandError("Invalid JSON response")`, not a
`ConnectionError`. -/
theorem C1_claim_false :
    (OpenSimClient.Exec ⟨some ()⟩ "show version" false [RecvEv.closed]).1 =
      ExecOut.commandError "Invalid JSON response" := rfl

/-- C1 witness: the amended claim at a connected state with the peer
closing immediately. -/
theorem C1_peer_close_classification_witness :
    (PymoteClient.ExecCmd ⟨some (), true⟩ "show version" [] [RecvEv.closed]).1 =
      .connectionError "Connection closed by server" ∧
    ((∃ m, (OpenSimClient.Exec ⟨some ()⟩ "show version" false [RecvEv.closed]).1 =
        .commandError m) ∨
      (∃ r, (OpenSimClient.Exec ⟨some ()⟩ "show version" false [RecvEv.closed]).1 =
        .result r)) :=
  C1_peer_close_classification ⟨some (), true⟩ ⟨some ()⟩ "show version" [] false
    [] [RecvEv.closed].tail rfl rfl rfl (by simp)

/-- C2 (amended): every `CommandResult` produced by `_execute` has
`output = ""` when `success` is false and no `error` when `success` is
true; when `success` is false, `error` is exactly the response's
`.get("Error")` value — which is `None` when the response carries no (or a
null) `Error` field, not a guaranteed-set message. -/
theorem C2_result_field_discipline :
    (∀ (st : OpenSimState) (command : String) (parseData : Bool) (evs : List RecvEv)
      (r : CommandResult), (OpenSimClient.Exec st command parseData evs).1 = .result r →
        (r.success = false → r.output = .str "") ∧ (r.success = true → r.error = none)) ∧
    (∀ (resp : Json) (command : String) (parseData : Bool) (r : CommandResult),
      osClassify resp command parseData = .ok r → r.success = false →
        jGetOpt resp "Error" = .ok r.error) := by
  constructor
  · intro st command parseData evs r h
    obtain ⟨resp, hresp⟩ := osExec_result h
    have hi := osClassify_invariants hresp
    exact ⟨fun hf => (hi.1 hf).1, hi.2⟩
  · intro resp command parseData r h hf
    exact ((osClassify_invariants h).1 hf).2

/-- C2 is false as claimed: a response whose `Success` is false but which
carries no `Error` field produces a failed `CommandResult` whose `error`
is `None` — unset, not set. -/
theorem C2_claim_false :
    (OpenSimClient.Exec ⟨some ()⟩ "x" false [RecvEv.data "\x7b\"Success\": false\x7d\n"]).1 =
      ExecOut.result { success := false, output := Json.str "", data := none, error := none } :=
  rfl

/-- C2 witness: the field discipline applied to the result of a concrete
failed-response execution. -/
theorem C2_result_field_discipline_witness :
    ((⟨false, Json.str "", none, none⟩ : CommandResult).success = false →
      (⟨false, Json.str "", none, none⟩ : CommandResult).output = Json.str "") ∧
    ((⟨false, Json.str "", none, none⟩ : CommandResult).success = true →
      (⟨false, Json.str "", none, none⟩ : CommandResult).error = none) :=
  C2_result_field_discipline.1 ⟨some ()⟩ "x" false
    [RecvEv.data "\x7b\"Success\": false\x7d\n"] ⟨false, Json.str "", none, none⟩ rfl

/-- C4 (amended): because every later matching line overwrites the field,
the guarantee holds for inputs in which no *other* line matches the same
keyword rule: if every line either does not mention `fps` or is one of
`"FPS: 55.0"` / `"Physics FPS: 54.2"`, and both occur, the result has
`fps = 55.0` and `physics_fps = 54.2` with no cross-assignment; likewise
if every line either does not mention `agents` or is `"Agents: 10"` /
`"Child Agents: 3"`, and `"Agents: 10"` occurs, the result has
`agents = 10` (the child-agents line sets nothing). -/
theorem C4_stats_keyword_precedence (s : String) :
    ((∀ l ∈ splitLines (pyStrip s),
        touchesFps l = false ∨ l = "FPS: 55.0" ∨ l = "Physics FPS: 54.2") →
      "FPS: 55.0" ∈ splitLines (pyStrip s) →
      "Physics FPS: 54.2" ∈ splitLines (pyStrip s) →
      ∃ st, parse_statsE s = .ok st ∧ st.fps = some 55 ∧
        st.physics_fps = some (271 / 5 : ℚ)) ∧
    ((∀ l ∈ splitLines (pyStrip s),
        touchesAgents l = false ∨ l = "Agents: 10" ∨ l = "Child Agents: 3") →
      "Agents: 10" ∈ splitLines (pyStrip s) →
      ∃ st, parse_statsE s = .ok st ∧ st.agents = some 10) := by
  constructor
  · intro hall hf hp
    exact ⟨_, parse_statsE_eq s, foldl_fps_55 hall hf _, foldl_physics_542 hall hp _⟩
  · intro hall ha
    exact ⟨_, parse_statsE_eq s, foldl_agents_10 hall ha _⟩

/-- C4 is false as claimed over *any* input containing the two lines: a
later `"FPS: 1"` line overwrites `fps`, so this input containing both
`"Physics FPS: 54.2"` and `"FPS: 55.0"` ends with `fps = 1`, not 55.0. -/
theorem C4_claim_false :
    parse_statsE "Physics FPS: 54.2\nFPS: 55.0\nFPS: 1" =
      .ok { fps := some 1, physics_fps := some (271 / 5 : ℚ), agents := none,
            objects := none, scripts := none, memory_mb := none, uptime := none } ∧
    (1 : ℚ) ≠ 55 := by
  constructor
  · rw [parse_statsE_eq]
    rw [show splitLines (pyStrip "Physics FPS: 54.2\nFPS: 55.0\nFPS: 1") =
      ["Physics FPS: 54.2", "FPS: 55.0", "FPS: 1"] from by decide]
    rw [List.foldl_cons, step_phys542, List.foldl_cons, step_fps55,
      List.foldl_cons, step_fps1, List.foldl_nil]
  · norm_num

/-- C4 witness: the amended claim applied to an input holding exactly the
four lines of the claim (each rule's designated lines and nothing else
matching). -/
theorem C4_stats_keyword_precedence_witness :
    (∃ st, parse_statsE "Physics FPS: 54.2\nFPS: 55.0\nAgents: 10\nChild Agents: 3" = .ok st ∧
      st.fps = some 55 ∧ st.physics_fps = some (271 / 5 : ℚ)) ∧
    (∃ st, parse_statsE "Physics FPS: 54.2\nFPS: 55.0\nAgents: 10\nChild Agents: 3" = .ok st ∧
      st.agents = some 10) :=
  ⟨(C4_stats_keyword_precedence "Physics FPS: 54.2\nFPS: 55.0\nAgents: 10\nChild Agents: 3").1
      (by decide) (by decide) (by decide),
   (C4_stats_keyword_precedence "Physics FPS: 54.2\nFPS: 55.0\nAgents: 10\nChild Agents: 3").2
      (by decide) (by decide)⟩

/-- C9: a region line whose location column splits on the comma into
exactly two parts of which either fails `int()` conversion contributes no
Region at all — the whole line is dropped (never a `(0, 0)` default);
conversely, any produced Region whose location column did split into two
parts carries the two converted integers, so the `(0, 0)` default applies
only when the comma split does not yield exactly two parts. -/
theorem C9_location_failure_drops_line :
    (∀ (line loctok a b : String), (pySplitWs line).get? 2 = some loctok →
      pySplitOn ',' loctok = [a, b] → (pyInt? a = none ∨ pyInt? b = none) →
      parseRegionLine line = .ok none) ∧
    parse_regionsE "Alpha uuid abc,def 256x256 9000" = .ok [] ∧
    (∀ (line : String) (r : Region) (loctok a b : String),
      parseRegionLine line = .ok (some r) → (pySplitWs line).get? 2 = some loctok →
      pySplitOn ',' loctok = [a, b] →
      ∃ x y, pyInt? a = some x ∧ pyInt? b = some y ∧
        r.location_x = x ∧ r.location_y = y) := by
  have main : ∀ (line loctok a b : String), (pySplitWs line).get? 2 = some loctok →
      pySplitOn ',' loctok = [a, b] → (pyInt? a = none ∨ pyInt? b = none) →
      parseRegionLine line = .ok none := by
    intro line loctok a b hget hsplit hfail
    have h2 : 2 < (pySplitWs line).length := by
      by_contra hc
      push_neg at hc
      rw [List.get?_eq_none.mpr hc] at hget
      exact Option.noConfusion hget
    have hloc : locOf (pySplitWs line) = .error .valueError := by
      unfold locOf
      rw [if_pos h2]
      simp only [pyGet, hget]
      simp only [hsplit]
      rw [if_pos (by simp)]
      simp only [List.get?]
      rcases hfail with hfa | hfb
      · simp only [pyIntE, hfa]
      · cases hpa : pyInt? a with
        | none => simp only [pyIntE, hpa]
        | some x => simp only [pyIntE, hpa, hfb]
    obtain ⟨n0, hn0⟩ := pyGet_ok_of_lt (l := pySplitWs line) (i := 0) (by omega)
    obtain ⟨n1, hn1⟩ := pyGet_ok_of_lt (l := pySplitWs line) (i := 1) (by omega)
    have htry : tryRegion (pySplitWs line) = .error .valueError := by
      unfold tryRegion
      simp only [hn0, if_pos (show 1 < (pySplitWs line).length by omega), hn1, hloc]
    unfold parseRegionLine
    split
    · rfl
    rw [if_neg (by omega)]
    simp only [htry]
  refine ⟨main, rfl, ?_⟩
  intro line r loctok a b hok hget hsplit
  have h2 : 2 < (pySplitWs line).length := by
    by_contra hc
    push_neg at hc
    rw [List.get?_eq_none.mpr hc] at hget
    exact Option.noConfusion hget
  cases hpa : pyInt? a with
  | none =>
    rw [main line loctok a b hget hsplit (.inl hpa)] at hok
    simp at hok
  | some x =>
    cases hpb : pyInt? b with
    | none =>
      rw [main line loctok a b hget hsplit (.inr hpb)] at hok
      simp at hok
    | some y =>
      have hloc : locOf (pySplitWs line) = .ok (x, y) := by
        unfold locOf
        rw [if_pos h2]
        simp only [pyGet, hget]
        simp only [hsplit]
        rw [if_pos (by simp)]
        simp only [List.get?]
        simp only [pyIntE, hpa, hpb]
      unfold parseRegionLine at hok
      split at hok
      · exact absurd hok (by simp)
      split at hok
      · exact absurd hok (by simp)
      split at hok
      next r' heq =>
        simp only [Except.ok.injEq, Option.some.injEq] at hok
        subst hok
        unfold tryRegion at heq
        split at heq
        · exact Except.noConfusion heq
        next name hname =>
          split at heq
          · exact Except.noConfusion heq
          next uuid huuid =>
            split at heq
            · exact Except.noConfusion heq
            next loc hleq =>
              rw [hloc] at hleq
              simp only [Except.ok.injEq] at hleq
              subst hleq
              split at heq
              · exact Except.noConfusion heq
              next sz hsz =>
                split at heq
                · exact Except.noConfusion heq
                next port hport =>
                  simp only [Except.ok.injEq] at heq
                  subst heq
                  exact ⟨x, y, rfl, rfl, rfl, rfl⟩
      all_goals exact absurd hok (by simp)

/-- C9 witness: the drop clause at the concrete line whose location column
is `"abc,def"`. -/
theorem C9_location_failure_drops_line_witness :
    parseRegionLine "Alpha uuid abc,def 256x256 9000" = .ok none :=
  C9_location_failure_drops_line.1 "Alpha uuid abc,def 256x256 9000" "abc,def"
    "abc" "def" (by decide) rfl (.inl rfl)

/-- C5 (amended): position extraction additionally requires the line to
split into more than 3 whitespace columns.  For a line that yields a
User: with more than 3 columns the position is the pattern's three
captured numbers (`None` if the pattern is absent); with 3 or fewer
columns the position is `None` even when the pattern occurs in the
line. -/
theorem C5_position_needs_columns {line : String} {u : User}
    (h : parseUserLine line = .ok (some u)) :
    ((pySplitWs line).length ≤ 3 → u.position = none) ∧
      (3 < (pySplitWs line).length →
        (∀ a b c, findPos line.data = some (a, b, c) →
          ∃ qa qb qc, pyFloat? ⟨a⟩ = some qa ∧ pyFloat? ⟨b⟩ = some qb ∧
            pyFloat? ⟨c⟩ = some qc ∧ u.position = some (qa, qb, qc)) ∧
        (findPos line.data = none → u.position = none)) := by
  have key : ∃ p, posOf (pySplitWs line) line = .ok p ∧ u.position = p := by
    unfold parseUserLine at h
    split at h
    · exact absurd h (by simp)
    split at h
    · exact absurd h (by simp)
    split at h
    next u' htry =>
      simp only [Except.ok.injEq, Option.some.injEq] at h
      subst h
      unfold tryUser at htry
      split at htry
      · exact Except.noConfusion htry
      next first hfirst =>
        split at htry
        · exact Except.noConfusion htry
        next last hlast =>
          split at htry
          · exact Except.noConfusion htry
          next region hregion =>
            split at htry
            · exact Except.noConfusion htry
            next position hpos =>
              simp only [Except.ok.injEq] at htry
              subst htry
              exact ⟨position, hpos, rfl⟩
    all_goals exact absurd h (by simp)
  obtain ⟨p, hpos, hup⟩ := key
  constructor
  · intro hle
    unfold posOf at hpos
    rw [if_neg (by omega)] at hpos
    simp only [Except.ok.injEq] at hpos
    rw [hup, ← hpos]
  · intro hgt
    unfold posOf at hpos
    rw [if_pos hgt] at hpos
    constructor
    · intro a b c hfind
      simp only [hfind] at hpos
      obtain ⟨⟨qa, hqa⟩, ⟨qb, hqb⟩, ⟨qc, hqc⟩⟩ := findPos_floats hfind
      simp only [pyFloatE, hqa, hqb, hqc, Except.ok.injEq] at hpos
      exact ⟨qa, qb, qc, hqa, hqb, hqc, by rw [hup, ← hpos]⟩
    · intro hfind
      simp only [hfind, Except.ok.injEq] at hpos
      rw [hup, ← hpos]

/-- C5 is false as stated: this line contains the position pattern (the
search succeeds on it), yet splits into only 3 whitespace columns, so the
produced User carries no position at all. -/
theorem C5_claim_false :
    parse_usersE "Jane Doe <1,2,3>" =
      .ok [{ first_name := "Jane", last_name := "Doe", uuid := none,
             region := some "<1,2,3>", position := none, online := true, level := 0 }] ∧
    (findPos ("Jane Doe <1,2,3>".data)).isSome = true :=
  ⟨rfl, rfl⟩

/-- C5 witness: the amended claim applied to a 4-column line carrying the
pattern; the three captures convert and become the position. -/
theorem C5_position_needs_columns_witness :
    ∃ qa qb qc, pyFloat? ⟨['1']⟩ = some qa ∧ pyFloat? ⟨['2']⟩ = some qb ∧
      pyFloat? ⟨['3']⟩ = some qc ∧
      ({ first_name := "Jane", last_name := "Doe", uuid := none, region := some "Region",
         position := some (((1 : ℕ) : ℚ), ((2 : ℕ) : ℚ), ((3 : ℕ) : ℚ)), online := true,
         level := 0 } : User).position = some (qa, qb, qc) :=
  ((@C5_position_needs_columns "Jane Doe Region <1, 2, 3>"
      ⟨"Jane", "Doe", none, some "Region",
        some (((1 : ℕ) : ℚ), ((2 : ℕ) : ℚ), ((3 : ℕ) : ℚ)), true, 0⟩ rfl).2 (by decide)).1
    ['1'] ['2'] ['3'] (by decide)

end Pymote
